import Mathlib

/-!
Verification of the xlb-topic-index RAG pipeline
(src/skills/xlb-topic-index/scripts/xlb_rag_pipeline.py).

The Python source is shallowly embedded: each Python function is translated
into an executable Lean definition over `String` / `List Char`, with Python
`set` values modelled as `Finset` or duplicate-free lists, SQLite tables as
`List Node` in insertion (rowid) order, and the external retrieval
collaborator of the explore loop as an explicit function parameter.
Wall-clock time is modelled as an explicit sequence of elapsed readings, and
Python float arithmetic on gains/thresholds as exact rationals.  Case folding
(`str.lower`) and whitespace classes are modelled on their ASCII fragments,
which covers every string constant the pipeline manipulates.
-/

/-! ## Python string primitives -/

/-- Whitespace characters recognised by Python `str.strip` / regex `\s`
(ASCII fragment). -/
def isPySpace (c : Char) : Bool :=
  c = ' ' || c = '\t' || c = '\n' || c = '\r' || c = '\x0b' || c = '\x0c'

def pyLStripChars (cs : List Char) : List Char := cs.dropWhile isPySpace

/-- Remove the maximal trailing run of characters satisfying `p`. -/
def rstripP (p : Char → Bool) (cs : List Char) : List Char :=
  (cs.reverse.dropWhile p).reverse

def pyRStripChars (cs : List Char) : List Char := rstripP isPySpace cs

def pyStripChars (cs : List Char) : List Char := pyRStripChars (pyLStripChars cs)

def pyStrip (s : String) : String := (pyStripChars s.toList).asString

def pyLStrip (s : String) : String := (pyLStripChars s.toList).asString

def pyRStrip (s : String) : String := (pyRStripChars s.toList).asString

/-- Python `value[n:]`. -/
def strDrop (s : String) (n : Nat) : String := (s.toList.drop n).asString

/-- Python `value[:-n]` for `n` at most the length. -/
def strDropRight (s : String) (n : Nat) : String :=
  (s.toList.take (s.toList.length - n)).asString

/-- Python `s.startswith(p)`. -/
def strStarts (s p : String) : Bool := p.toList.isPrefixOf s.toList

/-- Python `s.endswith(p)`. -/
def strEnds (s p : String) : Bool := p.toList.reverse.isPrefixOf s.toList.reverse

/-- Python `c in s` for a single character. -/
def strContainsChar (s : String) (c : Char) : Bool := s.toList.contains c

/-- Python `len(s)` (number of code points). -/
def strLen (s : String) : Nat := s.toList.length

/-- Python `s.rstrip(ch)` for a single strip character: removes every
trailing occurrence. -/
def dropTrailingChars (cs : List Char) (ch : Char) : List Char :=
  rstripP (· = ch) cs

def strDropTrailing (s : String) (ch : Char) : String :=
  (dropTrailingChars s.toList ch).asString

/-- ASCII fragment of Python `str.lower` on a character. -/
def asciiLowerChar (c : Char) : Char :=
  if 65 ≤ c.toNat ∧ c.toNat ≤ 90 then Char.ofNat (c.toNat + 32) else c

/-- ASCII fragment of Python `str.lower`. -/
def asciiLower (s : String) : String := (s.toList.map asciiLowerChar).asString

/-- Python `x or y` on strings: `y` when `x` is empty. -/
def pyOr (x y : String) : String := if x = "" then y else x

/-! ## Basic lemmas about the string primitives -/

theorem toList_asString (cs : List Char) : cs.asString.toList = cs := rfl

/-- Emptiness of the first char, as used by `str.strip` reasoning. -/
def leadOk (cs : List Char) : Prop :=
  match cs with
  | [] => True
  | c :: _ => isPySpace c = false

def trailOk (cs : List Char) : Prop := leadOk cs.reverse

theorem dropWhile_self_of_leadOk {cs : List Char} (h : leadOk cs) :
    cs.dropWhile isPySpace = cs := by
  cases cs with
  | nil => rfl
  | cons c t => simp [List.dropWhile, leadOk] at h ⊢; simp [h]

theorem pyLStripChars_of_leadOk {cs : List Char} (h : leadOk cs) :
    pyLStripChars cs = cs := dropWhile_self_of_leadOk h

theorem rstripP_cons (p : Char → Bool) (c : Char) (t : List Char) :
    rstripP p (c :: t) =
      if (rstripP p t).isEmpty then (if p c then [] else [c])
      else c :: rstripP p t := by
  unfold rstripP
  rw [List.reverse_cons, List.dropWhile_append]
  by_cases h : t.reverse.dropWhile p = []
  · by_cases hc : p c <;> simp [h, List.dropWhile, hc]
  · have h2 : (t.reverse.dropWhile p).reverse ≠ [] := by simpa using h
    simp [h, h2, List.isEmpty_iff]

theorem rstripP_length_le (p : Char → Bool) (cs : List Char) :
    (rstripP p cs).length ≤ cs.length := by
  unfold rstripP
  calc (cs.reverse.dropWhile p).reverse.length
      = (cs.reverse.dropWhile p).length := List.length_reverse _
    _ ≤ cs.reverse.length := (List.dropWhile_sublist _).length_le
    _ = cs.length := List.length_reverse _

theorem head?_rstripP (p : Char → Bool) (cs : List Char)
    (h : rstripP p cs ≠ []) : (rstripP p cs).head? = cs.head? := by
  induction cs with
  | nil => simp [rstripP] at h
  | cons c t ih =>
    rw [rstripP_cons] at h ⊢
    by_cases he : (rstripP p t).isEmpty
    · simp only [he, if_true] at h ⊢
      by_cases hc : p c
      · simp [hc] at h
      · simp [hc]
    · simp [he]

theorem pyRStripChars_of_trailOk {cs : List Char} (h : trailOk cs) :
    pyRStripChars cs = cs := by
  unfold pyRStripChars rstripP
  rw [dropWhile_self_of_leadOk h, List.reverse_reverse]

theorem leadOk_dropWhile (cs : List Char) : leadOk (cs.dropWhile isPySpace) := by
  induction cs with
  | nil => trivial
  | cons c t ih =>
    by_cases h : isPySpace c
    · simpa [List.dropWhile, h] using ih
    · simp only [List.dropWhile, h]
      simp only [leadOk]
      simpa using h

theorem leadOk_pyLStripChars (cs : List Char) : leadOk (pyLStripChars cs) :=
  leadOk_dropWhile cs

theorem trailOk_pyRStripChars (cs : List Char) : trailOk (pyRStripChars cs) := by
  unfold trailOk pyRStripChars rstripP
  rw [List.reverse_reverse]
  exact leadOk_dropWhile _

theorem leadOk_of_head? {cs ds : List Char} (hh : cs.head? = ds.head?)
    (h : leadOk ds) : leadOk cs := by
  cases cs with
  | nil => trivial
  | cons c t =>
    cases ds with
    | nil => simp at hh
    | cons d u =>
      simp only [List.head?] at hh
      simp only [leadOk] at h ⊢
      rw [Option.some_inj] at hh
      rw [hh]; exact h

theorem leadOk_pyRStripChars {cs : List Char} (h : leadOk cs) :
    leadOk (pyRStripChars cs) := by
  by_cases he : pyRStripChars cs = []
  · rw [he]; trivial
  · exact leadOk_of_head? (head?_rstripP _ _ he) h

/-- A list with no leading and no trailing whitespace is unchanged by
`str.strip`. -/
theorem pyStripChars_of_ok {cs : List Char} (h1 : leadOk cs) (h2 : trailOk cs) :
    pyStripChars cs = cs := by
  unfold pyStripChars
  rw [pyLStripChars_of_leadOk h1, pyRStripChars_of_trailOk h2]

theorem leadOk_pyStripChars (cs : List Char) : leadOk (pyStripChars cs) :=
  leadOk_pyRStripChars (leadOk_pyLStripChars cs)

theorem trailOk_pyStripChars (cs : List Char) : trailOk (pyStripChars cs) :=
  trailOk_pyRStripChars _

/-- `str.strip` is idempotent. -/
theorem pyStripChars_idem (cs : List Char) :
    pyStripChars (pyStripChars cs) = pyStripChars cs :=
  pyStripChars_of_ok (leadOk_pyStripChars cs) (trailOk_pyStripChars cs)

theorem pyStrip_idem (s : String) : pyStrip (pyStrip s) = pyStrip s := by
  unfold pyStrip
  rw [toList_asString, pyStripChars_idem]

theorem leadOk_iff {cs : List Char} :
    leadOk cs ↔ ∀ c ∈ cs.head?, isPySpace c = false := by
  cases cs <;> simp [leadOk]

theorem trailOk_iff {cs : List Char} :
    trailOk cs ↔ ∀ c ∈ cs.getLast?, isPySpace c = false := by
  unfold trailOk
  rw [leadOk_iff, List.head?_reverse]

theorem char_ofNat_toNat {n : Nat} (h : n < 55296) : (Char.ofNat n).toNat = n := by
  unfold Char.ofNat
  split
  · rfl
  · rename_i hn
    exact absurd (Or.inl h) hn

theorem isPySpace_eq_false_of_ge {c : Char} (h : 33 ≤ c.toNat) :
    isPySpace c = false := by
  unfold isPySpace
  have h1 : c ≠ ' ' := by intro he; rw [he] at h; revert h; decide
  have h2 : c ≠ '\t' := by intro he; rw [he] at h; revert h; decide
  have h3 : c ≠ '\n' := by intro he; rw [he] at h; revert h; decide
  have h4 : c ≠ '\r' := by intro he; rw [he] at h; revert h; decide
  have h5 : c ≠ '\x0b' := by intro he; rw [he] at h; revert h; decide
  have h6 : c ≠ '\x0c' := by intro he; rw [he] at h; revert h; decide
  simp [h1, h2, h3, h4, h5, h6]

/-- ASCII lowering maps non-whitespace to non-whitespace and fixes
whitespace. -/
theorem isPySpace_asciiLowerChar (c : Char) :
    isPySpace (asciiLowerChar c) = isPySpace c := by
  unfold asciiLowerChar
  split
  · rename_i h
    have h1 : (Char.ofNat (c.toNat + 32)).toNat = c.toNat + 32 :=
      char_ofNat_toNat (by omega)
    have h2 : (33 : Nat) ≤ (Char.ofNat (c.toNat + 32)).toNat := by rw [h1]; omega
    rw [isPySpace_eq_false_of_ge h2, isPySpace_eq_false_of_ge (by omega)]
  · rfl

theorem leadOk_map_asciiLower {cs : List Char} (h : leadOk cs) :
    leadOk (cs.map asciiLowerChar) := by
  cases cs with
  | nil => trivial
  | cons c t =>
    simp only [List.map_cons, leadOk] at h ⊢
    rw [isPySpace_asciiLowerChar]
    exact h

theorem trailOk_map_asciiLower {cs : List Char} (h : trailOk cs) :
    trailOk (cs.map asciiLowerChar) := by
  rw [trailOk_iff] at h ⊢
  intro c hc
  rw [List.getLast?_map] at hc
  cases hm : cs.getLast? with
  | none => rw [hm] at hc; simp at hc
  | some d =>
    rw [hm] at hc
    have hcd : c = asciiLowerChar d := by simpa [eq_comm] using hc
    rw [hcd, isPySpace_asciiLowerChar]
    exact h d (by rw [hm]; rfl)

theorem leadOk_take {cs : List Char} (h : leadOk cs) (n : Nat) :
    leadOk (cs.take n) := by
  cases cs with
  | nil => simp [leadOk]
  | cons c t =>
    cases n with
    | zero => trivial
    | succ m => simpa [leadOk] using h

theorem rstripP_length_lt {p : Char → Bool} {cs : List Char} {c : Char}
    (h : cs.getLast? = some c) (hp : p c = true) :
    (rstripP p cs).length < cs.length := by
  have hrev : cs.reverse.head? = some c := by rw [List.head?_reverse, h]
  obtain ⟨t, ht⟩ : ∃ t, cs.reverse = c :: t := by
    cases hcs : cs.reverse with
    | nil => rw [hcs] at hrev; simp at hrev
    | cons x xs =>
      rw [hcs] at hrev
      simp only [List.head?] at hrev
      rw [Option.some_inj] at hrev
      exact ⟨xs, by rw [hrev]⟩
  have h2 : cs.length = t.length + 1 := by
    have h3 := congrArg List.length ht
    simpa using h3
  unfold rstripP
  rw [ht]
  simp only [List.dropWhile, hp]
  have h1 : (t.dropWhile p).length ≤ t.length := (List.dropWhile_sublist _).length_le
  simp only [List.length_reverse]
  omega

/-! ## Whitespace collapsing and tag stripping (regex substitutions) -/

/-- Python `re.sub(r"\s+", " ", cs)`: every maximal whitespace run becomes a
single space (the space is emitted at the last character of the run, which
yields the same string as replacing the run as a block). -/
def collapseWsChars : List Char → List Char
  | [] => []
  | [c] => if isPySpace c then [' '] else [c]
  | c :: d :: cs =>
    if isPySpace c then
      (if isPySpace d then collapseWsChars (d :: cs)
       else ' ' :: collapseWsChars (d :: cs))
    else c :: collapseWsChars (d :: cs)

def collapseWs (s : String) : String := (collapseWsChars s.toList).asString

/-- Python `re.sub(r"<[^>]+>", " ", text)`: each non-empty bracketed tag is
replaced by a single space, scanning left to right.  The fuel argument is
the remaining input length; every step consumes at least one character, so
the fuel never runs out when started at the input length. -/
def stripTagsGo : Nat → List Char → List Char
  | _, [] => []
  | 0, cs => cs
  | fuel + 1, c :: rest =>
    if c = '<' then
      let drp := rest.dropWhile (· ≠ '>')
      if drp = [] then '<' :: stripTagsGo fuel rest
      else
        if (rest.takeWhile (· ≠ '>')).isEmpty then '<' :: stripTagsGo fuel rest
        else ' ' :: stripTagsGo fuel drp.tail
    else c :: stripTagsGo fuel rest

def stripTagsChars (cs : List Char) : List Char := stripTagsGo cs.length cs

def stripTags (s : String) : String := (stripTagsChars s.toList).asString

theorem length_collapseWsChars_le (cs : List Char) :
    (collapseWsChars cs).length ≤ cs.length := by
  induction cs with
  | nil => simp [collapseWsChars]
  | cons c cs ih =>
    cases cs with
    | nil => by_cases hc : isPySpace c <;> simp [collapseWsChars, hc]
    | cons d t =>
      by_cases hc : isPySpace c <;> by_cases hd : isPySpace d <;>
        simp only [List.length_cons] at ih <;>
        simp [collapseWsChars, hc, hd] <;> omega

theorem collapseWsChars_ne_nil {cs : List Char} (h : cs ≠ []) :
    collapseWsChars cs ≠ [] := by
  induction cs with
  | nil => exact absurd rfl h
  | cons c cs ih =>
    cases cs with
    | nil => by_cases hc : isPySpace c <;> simp [collapseWsChars, hc]
    | cons d t =>
      have ih2 := ih (by simp)
      by_cases hc : isPySpace c <;> by_cases hd : isPySpace d <;>
        simp [collapseWsChars, hc, hd, ih2]

theorem leadOk_collapseWsChars {cs : List Char} (h : leadOk cs) :
    leadOk (collapseWsChars cs) := by
  cases cs with
  | nil => trivial
  | cons c t =>
    simp only [leadOk] at h
    cases t with
    | nil => simp [collapseWsChars, h, leadOk]
    | cons d u =>
      rw [collapseWsChars, if_neg (by simp [h])]
      simpa [leadOk] using h

theorem getLast?_cons_of_ne_nil {α : Type} {a : α} {l : List α} (h : l ≠ []) :
    (a :: l).getLast? = l.getLast? := by
  cases l with
  | nil => exact absurd rfl h
  | cons b t => exact List.getLast?_cons_cons

theorem getLast?_dropWhile_ne {p : Char → Bool} {l : List Char}
    (h : l.dropWhile p ≠ []) :
    (l.dropWhile p).getLast? = l.getLast? := by
  induction l with
  | nil => simp at h
  | cons c t ih =>
    by_cases hc : p c
    · simp only [List.dropWhile, hc] at h ⊢
      have htne : t ≠ [] := by
        intro h0
        rw [h0] at h
        simp at h
      rw [ih h]
      exact (getLast?_cons_of_ne_nil htne).symm
    · simp [List.dropWhile, hc]

theorem pyStripChars_length_lt {cs : List Char} {c : Char}
    (h : cs.getLast? = some c) (hw : isPySpace c = true) :
    (pyStripChars cs).length < cs.length := by
  have hne : cs ≠ [] := by rintro rfl; simp at h
  unfold pyStripChars pyRStripChars
  by_cases hL : pyLStripChars cs = []
  · rw [hL]
    simp only [rstripP, List.reverse_nil, List.dropWhile_nil, List.length_nil]
    exact List.length_pos_of_ne_nil hne
  · have hgl : (pyLStripChars cs).getLast? = some c := by
      unfold pyLStripChars at hL ⊢
      rw [getLast?_dropWhile_ne hL, h]
    calc (rstripP isPySpace (pyLStripChars cs)).length
        < (pyLStripChars cs).length := rstripP_length_lt hgl hw
      _ ≤ cs.length := (List.dropWhile_sublist _).length_le

theorem asString_toList (s : String) : s.toList.asString = s := rfl

/-! ## Canonicalisation functions of the pipeline -/

/-- Source function: clean a label by stripping HTML tags, decoding entities
(the stdlib html.unescape is abstracted as the parameter `unesc`),
collapsing whitespace and stripping. -/
def _clean_label (unesc : String → String) (text : String) : String :=
  pyStrip (collapseWs (unesc (stripTags text)))

/-- Source function: canonical key of an exec title for the visited-exec
set: strip, drop one trailing colon (plus trailing blanks), lowercase. -/
def _canonical_edge_key (exec_title : String) : String :=
  let value := pyStrip exec_title
  let value := if strEnds value ":" then pyRStrip (strDropRight value 1) else value
  asciiLower value

/-- Source function: canonical topic key: strip, lowercase, collapse
whitespace, remove every trailing slash. -/
def _canonical_topic_key (value : String) : String :=
  let text := collapseWs (asciiLower (pyStrip value))
  strDropTrailing text '/'

theorem pyStrip_asciiLower_of_ok {v : String} (h1 : leadOk v.toList)
    (h2 : trailOk v.toList) : pyStrip (asciiLower v) = asciiLower v := by
  unfold pyStrip asciiLower
  rw [toList_asString,
    pyStripChars_of_ok (leadOk_map_asciiLower h1) (trailOk_map_asciiLower h2)]

theorem leadOk_toList_pyStrip (s : String) : leadOk (pyStrip s).toList := by
  unfold pyStrip
  rw [toList_asString]
  exact leadOk_pyStripChars _

theorem trailOk_toList_pyStrip (s : String) : trailOk (pyStrip s).toList := by
  unfold pyStrip
  rw [toList_asString]
  exact trailOk_pyStripChars _

/-- The canonical edge key always carries no edge whitespace, hence is fixed
by `str.strip`. -/
theorem pyStrip_canonical_edge_key (s : String) :
    pyStrip (_canonical_edge_key s) = _canonical_edge_key s := by
  unfold _canonical_edge_key
  by_cases h : strEnds (pyStrip s) ":"
  · simp only [h, if_true]
    apply pyStrip_asciiLower_of_ok
    · unfold pyRStrip
      rw [toList_asString]
      apply leadOk_pyRStripChars
      unfold strDropRight
      rw [toList_asString]
      exact leadOk_take (leadOk_toList_pyStrip s) _
    · unfold pyRStrip
      rw [toList_asString]
      exact trailOk_pyRStripChars _
  · simp only [h, if_false]
    exact pyStrip_asciiLower_of_ok (leadOk_toList_pyStrip s) (trailOk_toList_pyStrip s)

/-- A fixpoint of the canonical topic key is fixed by `str.strip`. -/
theorem pyStrip_of_canonical_topic_key_fix {k : String}
    (h : _canonical_topic_key k = k) : pyStrip k = k := by
  have hk : dropTrailingChars
      (collapseWsChars ((pyStripChars k.toList).map asciiLowerChar)) '/' = k.toList := by
    have h2 := congrArg String.toList h
    simpa [_canonical_topic_key, strDropTrailing, collapseWs, asciiLower, pyStrip,
      toList_asString] using h2
  have hlead : leadOk k.toList := by
    by_cases hnil : k.toList = []
    · rw [hnil]; trivial
    · have hk2 : rstripP (fun x => decide (x = '/'))
          (collapseWsChars ((pyStripChars k.toList).map asciiLowerChar)) = k.toList := hk
      have hne : rstripP (fun x => decide (x = '/'))
          (collapseWsChars ((pyStripChars k.toList).map asciiLowerChar)) ≠ [] := by
        rw [hk2]; exact hnil
      have hh := head?_rstripP (fun x => decide (x = '/')) _ hne
      rw [hk2] at hh
      exact leadOk_of_head? hh
        (leadOk_collapseWsChars (leadOk_map_asciiLower (leadOk_pyStripChars _)))
  have htrail : trailOk k.toList := by
    by_contra hcon
    rw [trailOk_iff] at hcon
    push_neg at hcon
    obtain ⟨c, hc1, hc2⟩ := hcon
    simp only [Bool.not_eq_false] at hc2
    have hlt : (pyStripChars k.toList).length < k.toList.length :=
      pyStripChars_length_lt hc1 hc2
    have hle1 : k.toList.length ≤
        (collapseWsChars ((pyStripChars k.toList).map asciiLowerChar)).length := by
      conv_lhs => rw [← hk]
      exact rstripP_length_le _ _
    have hle2 : (collapseWsChars ((pyStripChars k.toList).map asciiLowerChar)).length ≤
        (pyStripChars k.toList).length := by
      calc (collapseWsChars ((pyStripChars k.toList).map asciiLowerChar)).length
          ≤ ((pyStripChars k.toList).map asciiLowerChar).length :=
            length_collapseWsChars_le _
        _ = (pyStripChars k.toList).length := List.length_map _ _
    omega
  calc pyStrip k = (pyStripChars k.toList).asString := rfl
    _ = k.toList.asString := by rw [pyStripChars_of_ok hlead htrail]
    _ = k := asString_toList k

/-! ## Visited-state persistence (C6) -/

/-- Source function `save_visited_exec_titles`: the persisted JSON array is
the ascending sort of the non-empty keys of the set (Python
`sorted([k for k in keys if k])`); the set itself models the Python `set`,
so insertion order cannot influence the result. -/
def save_visited_exec_titles (keys : Finset String) : List String :=
  (keys.filter (fun k => k ≠ "")).sort (· ≤ ·)

/-- Source function `load_visited_exec_titles`: keep entries whose stripped
text is non-empty and canonicalise each into a set. -/
def load_visited_exec_titles (items : List String) : Finset String :=
  ((items.filter (fun x => pyStrip x ≠ "")).map _canonical_edge_key).toFinset

/-- Source function `save_visited_topic_keys`. -/
def save_visited_topic_keys (keys : Finset String) : List String :=
  (keys.filter (fun k => k ≠ "")).sort (· ≤ ·)

/-- Source function `load_visited_topic_keys`. -/
def load_visited_topic_keys (items : List String) : Finset String :=
  ((items.filter (fun x => pyStrip x ≠ "")).map _canonical_topic_key).toFinset

theorem visited_roundtrip_helper (canon : String → String)
    (hstrip : ∀ k, canon k = k → pyStrip k = k) (keys : Finset String)
    (h : ∀ k ∈ keys, canon k = k ∧ k ≠ "") :
    ((((keys.filter (fun k => k ≠ "")).sort (· ≤ ·)).filter
        (fun x => pyStrip x ≠ "")).map canon).toFinset = keys := by
  have hfil : keys.filter (fun k => k ≠ "") = keys :=
    Finset.filter_true_of_mem (fun k hk => (h k hk).2)
  rw [hfil]
  have hmem : ∀ x ∈ keys.sort (· ≤ ·), x ∈ keys := by
    intro x hx
    exact (Finset.mem_sort _).mp hx
  have hfil2 : (keys.sort (· ≤ ·)).filter (fun x => pyStrip x ≠ "") =
      keys.sort (· ≤ ·) := by
    apply List.filter_eq_self.mpr
    intro x hx
    have hx2 := h x (hmem x hx)
    have hx3 := hstrip x hx2.1
    simp [hx3, hx2.2]
  rw [hfil2]
  have hmap : (keys.sort (· ≤ ·)).map canon = keys.sort (· ≤ ·) := by
    calc (keys.sort (· ≤ ·)).map canon
        = (keys.sort (· ≤ ·)).map id :=
          List.map_congr_left (fun x hx => (h x (hmem x hx)).1)
      _ = keys.sort (· ≤ ·) := List.map_id _
  rw [hmap]
  exact Finset.sort_toFinset _ _

/-- C6: for every set of canonical visited keys (fixpoints of the respective
canonicalisation, necessarily non-empty strings), saving then loading the
visited-exec set, and likewise the visited-topic set, returns exactly the
same set of keys.  The Python `set` is modelled as a `Finset`, so the result
is independent of the order in which keys were inserted before saving. -/
theorem visited_sets_roundtrip (ke kt : Finset String)
    (hE : ∀ k ∈ ke, _canonical_edge_key k = k ∧ k ≠ "")
    (hT : ∀ k ∈ kt, _canonical_topic_key k = k ∧ k ≠ "") :
    load_visited_exec_titles (save_visited_exec_titles ke) = ke ∧
    load_visited_topic_keys (save_visited_topic_keys kt) = kt := by
  constructor
  · exact visited_roundtrip_helper _canonical_edge_key
      (fun k hk => by rw [← hk, pyStrip_canonical_edge_key]) ke hE
  · exact visited_roundtrip_helper _canonical_topic_key
      (fun k hk => pyStrip_of_canonical_topic_key_fix hk) kt hT

/-- Witness for C6 at concrete canonical keys. -/
theorem visited_sets_roundtrip_witness :
    load_visited_exec_titles (save_visited_exec_titles {">vibe coding/"}) =
        {">vibe coding/"} ∧
    load_visited_topic_keys (save_visited_topic_keys {"vibe coding"}) =
        {"vibe coding"} :=
  visited_sets_roundtrip {">vibe coding/"} {"vibe coding"}
    (by intro k hk; fin_cases hk; exact ⟨by decide, by decide⟩)
    (by intro k hk; fin_cases hk; exact ⟨by decide, by decide⟩)

/-! ## Directive-string helpers of the pipeline -/

/-- The three characters `xlb` in any letter case. -/
def xlbChars (a b c : Char) : Bool :=
  (a = 'x' || a = 'X') && (b = 'l' || b = 'L') && (c = 'b' || c = 'B')

/-- Python `re.match(r"^[Xx][Ll][Bb]\s+", s)` viewed as a Boolean test. -/
def hasXlbWsStart (s : String) : Bool :=
  match s.toList with
  | a :: b :: c :: d :: _ => xlbChars a b c && isPySpace d
  | _ => false

/-- Python `re.match(r"^[Xx][Ll][Bb]\s+(.+)$", s)`, returning group 1.  The
callers strip `s` first, so `$` is the end of the string and the greedy
whitespace run is followed by a non-empty, newline-free remainder. -/
def matchXlbPayload (s : String) : Option String :=
  match s.toList with
  | a :: b :: c :: rest =>
    if xlbChars a b c && (match rest with | d :: _ => isPySpace d | [] => false) then
      let r := rest.dropWhile isPySpace
      if r.isEmpty || r.contains '\n' then none else some r.asString
    else none
  | _ => none

/-- Python `re.match(r"^查询\s*[Xx][Ll][Bb]\s+(.+)$", s)`, returning
group 1, for a stripped input. -/
def matchQueryXlbPayload (s : String) : Option String :=
  match s.toList with
  | a :: b :: rest =>
    if a = '查' && b = '询' then
      match rest.dropWhile isPySpace with
      | x :: y :: z :: rest2 =>
        if xlbChars x y z && (match rest2 with | d :: _ => isPySpace d | [] => false) then
          let r := rest2.dropWhile isPySpace
          if r.isEmpty || r.contains '\n' then none else some r.asString
        else none
      | _ => none
    else none
  | _ => none

/-- Python `re.sub(r"\s*主题\s*$", "", s)` on an already-stripped `s`. -/
def subTrailingZhuti (s : String) : String :=
  if strEnds s "主题" then pyRStrip (strDropRight s 2) else s

/-- Source function `resolve_title_from_input`; `none` models the raised
`ValueError`. -/
def resolve_title_from_input (raw_input : String) : Option String :=
  let text := pyStrip raw_input
  if text = "" then none
  else if strStarts text ">" then some text
  else
    match matchXlbPayload text with
    | some g =>
      let payload := pyStrip g
      if payload = "" then none else some payload
    | none =>
      match matchQueryXlbPayload text with
      | some g =>
        let topic := subTrailingZhuti (pyStrip g)
        if topic = "" then none else some (">" ++ topic ++ "/")
      | none => some text

/-- Python `s.split(ch)` on characters: split at every occurrence, keeping
empty pieces. -/
def splitChars (ch : Char) : List Char → List (List Char)
  | [] => [[]]
  | c :: cs =>
    if c = ch then [] :: splitChars ch cs
    else
      match splitChars ch cs with
      | [] => [[c]]
      | p :: ps => (c :: p) :: ps

def splitOnChar (s : String) (ch : Char) : List String :=
  (splitChars ch s.toList).map List.asString

/-- Source function `root_topic_from_title`. -/
def root_topic_from_title (raw_title : String) : String :=
  let text := pyStrip raw_title
  if text = "" then ""
  else
    let cont := fun (text : String) =>
      let text :=
        if strStarts text "->" then pyLStrip (strDrop text 2)
        else if strStarts text ">" then pyLStrip (strDrop text 1)
        else if strStarts text "??" then pyLStrip (strDrop text 2)
        else text
      let text := pyStrip (strDropTrailing text ':')
      if text = "" then ""
      else
        let parts := ((splitOnChar text '/').map pyStrip).filter (fun p => p ≠ "")
        match parts with
        | [] => ""
        | p :: _ => p
    if hasXlbWsStart text then
      match resolve_title_from_input text with
      | none => ""
      | some t => cont t
    else cont text

/-- Source function `_to_input_from_exec_title`. -/
def _to_input_from_exec_title (exec_title : String) : String :=
  let value := pyStrip exec_title
  if value = "" then ""
  else if hasXlbWsStart value then value
  else if strStarts value ">" || strStarts value "??" then "xlb " ++ value
  else "xlb >" ++ value

/-- The three per-topic section inputs built by `topic_section_inputs`.  The
source returns an empty dict for a blank topic; the explore loop only calls
it with a non-empty root topic, which is the case modelled here. -/
structure SectionInputs where
  searchin : String
  command : String
  backlink : String
deriving Repr, DecidableEq

def topic_section_inputs (topic_root : String) : SectionInputs :=
  let topic := pyStrip topic_root
  { searchin := "xlb >" ++ topic ++ "/searchin:"
    command := "xlb >" ++ topic ++ "/command:"
    backlink := "xlb ->" ++ topic ++ "/:" }

/-- Attempt of the parenthesised-directive pattern right after a `(`:
optional whitespace, the marker `??` or `>`/`>>`, at least one non-`)`
character, then a `)`; returns the capture group (marker plus the characters
up to the closing parenthesis). -/
def parenAt (rest : List Char) : Option (List Char) :=
  match rest.dropWhile isPySpace with
  | '?' :: '?' :: tail =>
    let tak := tail.takeWhile (· ≠ ')')
    if tak.isEmpty || (tail.dropWhile (· ≠ ')')).isEmpty then none
    else some ('?' :: '?' :: tak)
  | '>' :: tail =>
    let tak := tail.takeWhile (· ≠ ')')
    if tak.isEmpty || (tail.dropWhile (· ≠ ')')).isEmpty then none
    else some ('>' :: tak)
  | _ => none

/-- Python `re.search(r"\(\s*((?:\?\?|>{1,2})[^)]+)\s*\)", value)`:
left-to-right scan for the first opening parenthesis at which the pattern
matches, returning the capture group. -/
def findParenDirective : List Char → Option (List Char)
  | [] => none
  | c :: rest =>
    if c = '(' then
      match parenAt rest with
      | some g => some g
      | none => findParenDirective rest
    else findParenDirective rest

/-- Source function `_normalize_query_exec_title` (the stdlib
`html.unescape` used inside `_clean_label` is abstracted as `unesc`). -/
def _normalize_query_exec_title (unesc : String → String) (raw_query : String)
    (sect : String) (fallback_title : String) : String :=
  let value := pyStrip raw_query
  let value :=
    if value = "" then
      (let f := pyStrip fallback_title
       if f ≠ "" then ">" ++ f else "")
    else value
  if value = "" then ""
  else
    let value :=
      match findParenDirective value.toList with
      | some g => pyStrip g.asString
      | none => value
    let value := if strStarts value ">>" then ">" ++ pyLStrip (strDrop value 2) else value
    if strStarts value ">" then
      let body := pyStrip (strDrop value 1)
      if body ≠ "" && !(strContainsChar body '/') && !(strEnds body "/") then
        ">" ++ body ++ "/"
      else if body ≠ "" then ">" ++ body else ">"
    else if strStarts value "??" then value
    else if strStarts (asciiLower (pyStrip sect)) "searchin" then
      let title := _clean_label unesc fallback_title
      if title ≠ "" then ">" ++ title ++ "/" else ""
    else ""

/-- Source function `_classify_query_kind`. -/
def _classify_query_kind (sect : String) (exec_title : String) : String :=
  let sec := asciiLower (pyStrip sect)
  if strStarts sec "searchin" then "topic_nav"
  else if strStarts sec "command" then "kb_search"
  else if strStarts exec_title "??" then "topic_lookup"
  else if strStarts exec_title ">" then "query"
  else "unknown"

/-- Source function `_is_query_payload`. -/
def _is_query_payload (payload_raw : String) : Bool :=
  strStarts payload_raw ">" || strStarts payload_raw ">>" || strStarts payload_raw "??"
    || (findParenDirective payload_raw.toList).isSome

/-- Source function `_normalize_seed_input`. -/
def _normalize_seed_input (seed_input : String) : String :=
  let text := pyStrip seed_input
  if text = "" then ""
  else if hasXlbWsStart text then text
  else
    let title :=
      match resolve_title_from_input text with
      | some t => t
      | none => text
    _to_input_from_exec_title title

/-! ## Node data model and the markdown parser -/

/-- The `Node` dataclass of the source.  The Python field `section` is named
`sect` here because `section` is a Lean keyword. -/
structure Node where
  node_id : String := ""
  node_type : String := ""
  topic : String := ""
  sect : String := ""
  title : String := ""
  content : String := ""
  url : String := ""
  query_cmd : String := ""
  query_exec_title : String := ""
  query_kind : String := ""
  query_source : String := ""
  source_title : String := ""
deriving Repr, DecidableEq

/-- Source function `_split_url_and_anchor`. -/
def _split_url_and_anchor (text : String) : String × String :=
  let raw := pyStrip text
  if strContainsChar raw '#' then
    (pyStrip (raw.toList.takeWhile (· ≠ '#')).asString,
     pyStrip ((raw.toList.dropWhile (· ≠ '#')).tail).asString)
  else (raw, "")

/-- Source function `_join_section_path`. -/
def _join_section_path (sect group : String) : String :=
  let base := pyStrip sect
  let grp := pyStrip group
  if grp = "" then (if base = "" then "root" else base)
  else if base = "" then grp
  else base ++ "/" ++ grp

/-- Python `str.splitlines` (newline variants `\n`, `\r`, `\r\n`): the
accumulator holds the current line reversed. -/
def splitlinesGo : List Char → List Char → List (List Char)
  | cur, [] => [cur.reverse]
  | cur, '\r' :: '\n' :: rest =>
    cur.reverse :: (match rest with | [] => [] | d :: ds => splitlinesGo [] (d :: ds))
  | cur, '\n' :: rest =>
    cur.reverse :: (match rest with | [] => [] | d :: ds => splitlinesGo [] (d :: ds))
  | cur, '\r' :: rest =>
    cur.reverse :: (match rest with | [] => [] | d :: ds => splitlinesGo [] (d :: ds))
  | cur, c :: rest => splitlinesGo (c :: cur) rest

def pySplitlines (s : String) : List String :=
  match s.toList with
  | [] => []
  | cs => (splitlinesGo [] cs).map List.asString

/-- Mutable state of the line-oriented parser in `parse_markdown_to_nodes`. -/
structure ParseState where
  topic : String
  sect : String
  current_group : String
  pending_title : String
  nodes : List Node
deriving Repr

/-- The link node emitted for a `###` heading whose payload is a bare URL. -/
def heading_link_node (unesc : String → String) (hashFn : List String → String)
    (source_title : String) (st : ParseState) (payload_raw : String) : Node :=
  let section_path := _join_section_path st.sect st.current_group
  let ua := _split_url_and_anchor payload_raw
  let url := ua.1
  let anchor := _clean_label unesc ua.2
  let title := _clean_label unesc (pyOr st.pending_title (pyOr anchor url))
  { node_id := hashFn [st.topic, section_path, "link", title, url]
    node_type := "link"
    topic := pyOr st.topic "unknown-topic"
    sect := section_path
    title := title
    content := _clean_label unesc (pyOr anchor title)
    url := url
    source_title := source_title }

/-- The query node emitted for a `###` heading whose payload is a directive. -/
def heading_query_node (unesc : String → String) (hashFn : List String → String)
    (source_title : String) (st : ParseState) (payload_raw : String) : Node :=
  let section_path := _join_section_path st.sect st.current_group
  let query_cmd := payload_raw
  let exec_title := _normalize_query_exec_title unesc query_cmd st.sect st.pending_title
  { node_id := hashFn [st.topic, section_path, "query", query_cmd]
    node_type := "query"
    topic := pyOr st.topic "unknown-topic"
    sect := section_path
    title := _clean_label unesc (pyOr st.pending_title query_cmd)
    content := _clean_label unesc (section_path ++ " " ++ query_cmd)
    query_cmd := query_cmd
    query_exec_title := exec_title
    query_kind := _classify_query_kind st.sect exec_title
    query_source := asciiLower (pyStrip st.sect)
    source_title := source_title }

/-- The category node emitted for any other `###` heading. -/
def category_node (unesc : String → String) (hashFn : List String → String)
    (source_title : String) (st : ParseState) (payload : String) : Node :=
  let group_path := _join_section_path st.sect payload
  { node_id := hashFn [st.topic, group_path, "category", payload]
    node_type := "category"
    topic := pyOr st.topic "unknown-topic"
    sect := group_path
    title := payload
    content := "category " ++ payload
    source_title := source_title }

/-- The link node emitted for a `- http(s)://...` bullet line. -/
def bullet_link_node (unesc : String → String) (hashFn : List String → String)
    (source_title : String) (st : ParseState) (payload : String) : Node :=
  let ua := _split_url_and_anchor payload
  let url := ua.1
  let anchor := _clean_label unesc ua.2
  let title := _clean_label unesc (pyOr anchor (pyOr st.pending_title url))
  let section_path := _join_section_path st.sect st.current_group
  { node_id := hashFn [st.topic, section_path, "link", title, url]
    node_type := "link"
    topic := pyOr st.topic "unknown-topic"
    sect := section_path
    title := title
    content := _clean_label unesc (section_path ++ " " ++ pyOr anchor title)
    url := url
    source_title := source_title }

/-- One iteration of the parser loop of `parse_markdown_to_nodes`.  The
content hash `_hash` over the id parts is abstracted as `hashFn`, and
`html.unescape` as `unesc`; the emitted node literals are named above. -/
def parseLine (unesc : String → String) (hashFn : List String → String)
    (source_title : String) (st : ParseState) (raw_line : String) : ParseState :=
  let line := pyStrip raw_line
  if line = "" then st
  else if strStarts line "# " then
    { st with topic := _clean_label unesc (pyStrip (strDrop line 2)) }
  else if strStarts line "## " then
    { st with
      sect := _clean_label unesc (strDropTrailing (pyStrip (strDrop line 3)) ':')
      current_group := ""
      pending_title := "" }
  else if strStarts line "### " then
    let payload_raw := pyStrip (strDrop line 4)
    let payload := _clean_label unesc payload_raw
    if strStarts payload_raw "http://" || strStarts payload_raw "https://" then
      { st with
        nodes := st.nodes ++ [heading_link_node unesc hashFn source_title st payload_raw]
        pending_title := "" }
    else if _is_query_payload payload_raw then
      { st with
        nodes := st.nodes ++ [heading_query_node unesc hashFn source_title st payload_raw]
        pending_title := "" }
    else
      { st with
        current_group := payload
        pending_title := payload
        nodes := st.nodes ++ [category_node unesc hashFn source_title st payload] }
  else if strStarts line "- http://" || strStarts line "- https://" then
    { st with
      nodes := st.nodes ++
        [bullet_link_node unesc hashFn source_title st (pyStrip (strDrop line 2))]
      pending_title := "" }
  else st

def parseInitState : ParseState :=
  { topic := "", sect := "root", current_group := "", pending_title := "", nodes := [] }

/-- Source function `parse_markdown_to_nodes`. -/
def parse_markdown_to_nodes (unesc : String → String) (hashFn : List String → String)
    (markdown source_title : String) : List Node :=
  ((pySplitlines markdown).foldl (parseLine unesc hashFn source_title) parseInitState).nodes

/-! ## C8: query exec titles are empty or carry a directive marker -/

theorem isPrefixOf_append_left (l m : List Char) : l.isPrefixOf (l ++ m) = true := by
  simp [ List.isPrefixOf_iff_prefix]

theorem isPrefixOf_append_of {l s : List Char} (t : List Char)
    (h : l.isPrefixOf s = true) : l.isPrefixOf (s ++ t) = true := by
  rw [ List.isPrefixOf_iff_prefix] at h ⊢
  exact h.trans (List.prefix_append s t)

theorem strToList_append (a b : String) : (a ++ b).toList = a.toList ++ b.toList :=
  String.data_append a b

theorem strStarts_append (p s : String) : strStarts (p ++ s) p = true := by
  unfold strStarts
  rw [strToList_append]
  exact isPrefixOf_append_left _ _

theorem strStarts_append_right {s p : String} (h : strStarts s p = true)
    (t : String) : strStarts (s ++ t) p = true := by
  unfold strStarts at h ⊢
  rw [strToList_append]
  exact isPrefixOf_append_of _ h

/-- The invariant of C8: a `query_exec_title` is empty or begins with one of
the directive markers. -/
def execMarkerOk (s : String) : Prop :=
  s = "" ∨ strStarts s ">" = true ∨ strStarts s "??" = true

theorem execMarkerOk_normalize (unesc : String → String) (raw sect fb : String) :
    execMarkerOk (_normalize_query_exec_title unesc raw sect fb) := by
  unfold _normalize_query_exec_title
  simp only [execMarkerOk]
  set v1 := if pyStrip raw = "" then
      (let f := pyStrip fb
       if f ≠ "" then ">" ++ f else "") else pyStrip raw with hv1
  set v2 := (match findParenDirective v1.toList with
    | some g => pyStrip g.asString
    | none => v1) with hv2
  set v3 := if strStarts v2 ">>" then ">" ++ pyLStrip (strDrop v2 2) else v2 with hv3
  clear_value v1 v2 v3
  by_cases h1 : v1 = ""
  · rw [if_pos h1]
    exact Or.inl rfl
  · rw [if_neg h1]
    by_cases h2 : strStarts v3 ">"
    · rw [if_pos h2]
      split
      · exact Or.inr (Or.inl (strStarts_append_right (strStarts_append ">" _) "/"))
      · split
        · exact Or.inr (Or.inl (strStarts_append ">" _))
        · exact Or.inr (Or.inl (by decide))
    · rw [if_neg h2]
      by_cases h3 : strStarts v3 "??"
      · rw [if_pos h3]
        exact Or.inr (Or.inr h3)
      · rw [if_neg h3]
        split
        · split
          · exact Or.inr (Or.inl (strStarts_append_right (strStarts_append ">" _) "/"))
          · exact Or.inl rfl
        · exact Or.inl rfl

theorem foldl_preserve {σ α : Type} (f : σ → α → σ) (Q : σ → Prop)
    (hstep : ∀ s a, Q s → Q (f s a)) :
    ∀ (l : List α) (s : σ), Q s → Q (l.foldl f s) := by
  intro l
  induction l with
  | nil => intro s h; exact h
  | cons a t ih => intro s h; exact ih _ (hstep s a h)

theorem parseLine_shape (unesc : String → String) (hashFn : List String → String)
    (source_title : String) (st : ParseState) (raw_line : String) :
    (parseLine unesc hashFn source_title st raw_line).nodes = st.nodes ∨
    ∃ nd, (parseLine unesc hashFn source_title st raw_line).nodes = st.nodes ++ [nd] ∧
      nd.topic = pyOr st.topic "unknown-topic" ∧
      (nd.query_exec_title = "" ∨
       ∃ q, nd.query_exec_title =
         _normalize_query_exec_title unesc q st.sect st.pending_title) := by
  simp only [parseLine]
  generalize pyStrip raw_line = L
  by_cases c0 : L = ""
  · rw [if_pos c0]
    exact Or.inl rfl
  · rw [if_neg c0]
    by_cases c1 : strStarts L "# " = true
    · rw [if_pos c1]
      exact Or.inl rfl
    · rw [if_neg c1]
      by_cases c2 : strStarts L "## " = true
      · rw [if_pos c2]
        exact Or.inl rfl
      · rw [if_neg c2]
        by_cases c3 : strStarts L "### " = true
        · rw [if_pos c3]
          generalize pyStrip (strDrop L 4) = P
          by_cases c4 : (strStarts P "http://" || strStarts P "https://") = true
          · rw [if_pos c4]
            exact Or.inr ⟨_, rfl, rfl, Or.inl rfl⟩
          · rw [if_neg c4]
            by_cases c5 : _is_query_payload P = true
            · rw [if_pos c5]
              exact Or.inr ⟨_, rfl, rfl, Or.inr ⟨_, rfl⟩⟩
            · rw [if_neg c5]
              exact Or.inr ⟨_, rfl, rfl, Or.inl rfl⟩
        · rw [if_neg c3]
          by_cases c6 : (strStarts L "- http://" || strStarts L "- https://") = true
          · rw [if_pos c6]
            exact Or.inr ⟨_, rfl, rfl, Or.inl rfl⟩
          · rw [if_neg c6]
            exact Or.inl rfl

theorem parseLine_execMarkerOk (unesc : String → String)
    (hashFn : List String → String) (source_title : String) (st : ParseState)
    (line : String) (h : ∀ n ∈ st.nodes, execMarkerOk n.query_exec_title) :
    ∀ n ∈ (parseLine unesc hashFn source_title st line).nodes,
      execMarkerOk n.query_exec_title := by
  intro n hn
  rcases parseLine_shape unesc hashFn source_title st line with hs | ⟨nd, hs, _, hq⟩
  · rw [hs] at hn
    exact h n hn
  · rw [hs] at hn
    rcases List.mem_append.mp hn with h1 | h2
    · exact h n h1
    · have h3 := List.mem_singleton.mp h2
      subst h3
      rcases hq with hq | ⟨q, hq⟩
      · exact Or.inl hq
      · rw [hq]
        exact execMarkerOk_normalize unesc _ _ _

/-- C8: for every raw query string, section and fallback title, the value of
the exec-title normaliser is either the empty string or begins with one of
the directive markers, and hence the `query_exec_title` field of every node
produced by the markdown parser is either empty or begins with one of those
markers. -/
theorem query_exec_title_directive_marker (unesc : String → String)
    (hashFn : List String → String) (raw sect fb markdown source_title : String) :
    execMarkerOk (_normalize_query_exec_title unesc raw sect fb) ∧
    ∀ n ∈ parse_markdown_to_nodes unesc hashFn markdown source_title,
      execMarkerOk n.query_exec_title := by
  refine ⟨execMarkerOk_normalize unesc raw sect fb, ?_⟩
  unfold parse_markdown_to_nodes
  exact foldl_preserve (parseLine unesc hashFn source_title)
    (fun st => ∀ n ∈ st.nodes, execMarkerOk n.query_exec_title)
    (fun s a hq => parseLine_execMarkerOk unesc hashFn source_title s a hq)
    (pySplitlines markdown) parseInitState
    (by intro n hn; simp [parseInitState] at hn)

/-- Witness for C8 on a concrete document and query payload. -/
theorem query_exec_title_directive_marker_witness :
    execMarkerOk (_normalize_query_exec_title id ">>  X" "searchin:" "T") ∧
    execMarkerOk (Node.query_exec_title
      { node_id := "T\x00searchin\x00query\x00>Sub/", node_type := "query",
        topic := "T", sect := "searchin", title := ">Sub/",
        content := "searchin >Sub/", url := "", query_cmd := ">Sub/",
        query_exec_title := ">Sub/", query_kind := "topic_nav",
        query_source := "searchin", source_title := "src" }) :=
  ⟨(query_exec_title_directive_marker id (fun ps => String.intercalate "\x00" ps)
      ">>  X" "searchin:" "T" "# T\n## searchin:\n### >Sub/\n" "src").1,
   (query_exec_title_directive_marker id (fun ps => String.intercalate "\x00" ps)
      ">>  X" "searchin:" "T" "# T\n## searchin:\n### >Sub/\n" "src").2
     _ (by decide)⟩

/-! ## C10: every parsed node has a non-empty topic -/

theorem pyOr_ne_empty {x y : String} (hy : y ≠ "") : pyOr x y ≠ "" := by
  unfold pyOr
  split
  · exact hy
  · assumption

/-- A line that sets a non-empty current topic: a first-level heading whose
cleaned text is non-empty. -/
def effectiveTopicHeading (unesc : String → String) (raw_line : String) : Prop :=
  strStarts (pyStrip raw_line) "# " = true ∧
  _clean_label unesc (pyStrip (strDrop (pyStrip raw_line) 2)) ≠ ""

/-- Lines that are not effective topic headings leave an empty topic state
empty. -/
theorem parseLine_topic_state (unesc : String → String)
    (hashFn : List String → String) (source_title : String) (st : ParseState)
    (raw_line : String) (h0 : st.topic = "")
    (hne : ¬ effectiveTopicHeading unesc raw_line) :
    (parseLine unesc hashFn source_title st raw_line).topic = "" := by
  unfold effectiveTopicHeading at hne
  simp only [parseLine]
  generalize hL : pyStrip raw_line = L
  rw [hL] at hne
  by_cases c0 : L = ""
  · rw [if_pos c0]
    exact h0
  · rw [if_neg c0]
    by_cases c1 : strStarts L "# " = true
    · rw [if_pos c1]
      show _clean_label unesc (pyStrip (strDrop L 2)) = ""
      by_contra hc
      exact hne ⟨c1, hc⟩
    · rw [if_neg c1]
      by_cases c2 : strStarts L "## " = true
      · rw [if_pos c2]
        exact h0
      · rw [if_neg c2]
        by_cases c3 : strStarts L "### " = true
        · rw [if_pos c3]
          generalize pyStrip (strDrop L 4) = P
          by_cases c4 : (strStarts P "http://" || strStarts P "https://") = true
          · rw [if_pos c4]
            exact h0
          · rw [if_neg c4]
            by_cases c5 : _is_query_payload P = true
            · rw [if_pos c5]
              exact h0
            · rw [if_neg c5]
              exact h0
        · rw [if_neg c3]
          by_cases c6 : (strStarts L "- http://" || strStarts L "- https://") = true
          · rw [if_pos c6]
            exact h0
          · rw [if_neg c6]
            exact h0

theorem foldl_preserve_mem {σ α : Type} (f : σ → α → σ) (Q : σ → Prop) :
    ∀ (l : List α), (∀ s a, a ∈ l → Q s → Q (f s a)) →
      ∀ s, Q s → Q (l.foldl f s) := by
  intro l
  induction l with
  | nil => intro _ s h; exact h
  | cons a t ih =>
    intro hstep s h
    exact ih (fun s' a' ha' => hstep s' a' (List.mem_cons_of_mem a ha'))
      _ (hstep s a (List.mem_cons_self a t) h)

theorem parseLine_nodes_extend (unesc : String → String)
    (hashFn : List String → String) (source_title : String) (st : ParseState)
    (raw_line : String) :
    ∃ δ, (parseLine unesc hashFn source_title st raw_line).nodes = st.nodes ++ δ := by
  rcases parseLine_shape unesc hashFn source_title st raw_line with hs | ⟨nd, hs, _, _⟩
  · exact ⟨[], by rw [hs, List.append_nil]⟩
  · exact ⟨[nd], hs⟩

theorem foldl_parseLine_extend (unesc : String → String)
    (hashFn : List String → String) (source_title : String) :
    ∀ (l : List String) (st : ParseState),
      ∃ rest, (l.foldl (parseLine unesc hashFn source_title) st).nodes =
        st.nodes ++ rest := by
  intro l
  induction l with
  | nil => intro st; exact ⟨[], by rw [List.append_nil]; rfl⟩
  | cons a t ih =>
    intro st
    obtain ⟨r1, hr1⟩ := ih (parseLine unesc hashFn source_title st a)
    obtain ⟨r0, hr0⟩ := parseLine_nodes_extend unesc hashFn source_title st a
    exact ⟨r0 ++ r1, by
      rw [List.foldl_cons, hr1, hr0, List.append_assoc]⟩

/-- C10: every node produced by the parser has a non-empty topic, and for
any decomposition of the document lines whose first part contains no
effective first-level heading (no heading at all, or only headings whose
cleaned text is empty) the nodes emitted while folding that first part all
carry the literal topic `unknown-topic` and form an initial segment of the
full parse result. -/
theorem parse_nodes_topic_defaulted (unesc : String → String)
    (hashFn : List String → String) (markdown source_title : String) :
    (∀ n ∈ parse_markdown_to_nodes unesc hashFn markdown source_title,
      n.topic ≠ "") ∧
    (∀ pre post, pySplitlines markdown = pre ++ post →
      (∀ line ∈ pre, ¬ effectiveTopicHeading unesc line) →
      (∀ n ∈ (pre.foldl (parseLine unesc hashFn source_title) parseInitState).nodes,
          n.topic = "unknown-topic") ∧
      ∃ rest, parse_markdown_to_nodes unesc hashFn markdown source_title =
        (pre.foldl (parseLine unesc hashFn source_title) parseInitState).nodes
          ++ rest) := by
  constructor
  · unfold parse_markdown_to_nodes
    refine foldl_preserve (parseLine unesc hashFn source_title)
      (fun st => ∀ n ∈ st.nodes, n.topic ≠ "") ?_ (pySplitlines markdown)
      parseInitState ?_
    · intro s a hq n hn
      rcases parseLine_shape unesc hashFn source_title s a with hs | ⟨nd, hs, ht, _⟩
      · rw [hs] at hn
        exact hq n hn
      · rw [hs] at hn
        rcases List.mem_append.mp hn with h1 | h2
        · exact hq n h1
        · have h3 := List.mem_singleton.mp h2
          subst h3
          rw [ht]
          exact pyOr_ne_empty (by decide)
    · intro n hn
      simp [parseInitState] at hn
  · intro pre post hsplit hpre
    constructor
    · have hQ : (fun st => st.topic = "" ∧
          ∀ n ∈ st.nodes, n.topic = "unknown-topic")
          (pre.foldl (parseLine unesc hashFn source_title) parseInitState) := by
        refine foldl_preserve_mem (parseLine unesc hashFn source_title)
          (fun st => st.topic = "" ∧ ∀ n ∈ st.nodes, n.topic = "unknown-topic")
          pre ?_ parseInitState
          ⟨rfl, by intro n hn; simp [parseInitState] at hn⟩
        intro s a ha hq
        refine ⟨parseLine_topic_state unesc hashFn source_title s a hq.1
          (hpre a ha), ?_⟩
        intro n hn
        rcases parseLine_shape unesc hashFn source_title s a with hs | ⟨nd, hs, ht, _⟩
        · rw [hs] at hn
          exact hq.2 n hn
        · rw [hs] at hn
          rcases List.mem_append.mp hn with h1 | h2
          · exact hq.2 n h1
          · have h3 := List.mem_singleton.mp h2
            subst h3
            rw [ht, hq.1]
            rfl
      exact hQ.2
    · unfold parse_markdown_to_nodes
      rw [hsplit, List.foldl_append]
      exact foldl_parseLine_extend unesc hashFn source_title post _

instance (unesc : String → String) (raw_line : String) :
    Decidable (effectiveTopicHeading unesc raw_line) :=
  inferInstanceAs (Decidable (strStarts (pyStrip raw_line) "# " = true ∧
    _clean_label unesc (pyStrip (strDrop (pyStrip raw_line) 2)) ≠ ""))

/-- Witness for C10: a document whose first line precedes any first-level
heading. -/
theorem parse_nodes_topic_defaulted_witness :
    (∀ n ∈ parse_markdown_to_nodes id (fun ps => String.intercalate "\x00" ps)
        "### >X/\n# T\n### >Y/" "src", n.topic ≠ "") ∧
    ((∀ n ∈ (["### >X/"].foldl
        (parseLine id (fun ps => String.intercalate "\x00" ps) "src")
        parseInitState).nodes, n.topic = "unknown-topic") ∧
      ∃ rest, parse_markdown_to_nodes id (fun ps => String.intercalate "\x00" ps)
          "### >X/\n# T\n### >Y/" "src" =
        (["### >X/"].foldl
          (parseLine id (fun ps => String.intercalate "\x00" ps) "src")
          parseInitState).nodes ++ rest) :=
  ⟨(parse_nodes_topic_defaulted id (fun ps => String.intercalate "\x00" ps)
      "### >X/\n# T\n### >Y/" "src").1,
   (parse_nodes_topic_defaulted id (fun ps => String.intercalate "\x00" ps)
      "### >X/\n# T\n### >Y/" "src").2 ["### >X/"] ["# T", "### >Y/"]
     (by decide) (by decide)⟩

/-! ## C4: build_index stores at most one row per node id -/

/-- The insertion loop of `build_index`: the primary `nodes` relation in
insertion (rowid) order, with the source's `seen_ids` set threaded through;
a node whose id was already seen is skipped.  The full-text side relation
receives exactly the rows inserted here and is not modelled separately. -/
def buildIndexRows (seen : List String) : List Node → List Node
  | [] => []
  | n :: ns =>
    if n.node_id ∈ seen then buildIndexRows seen ns
    else n :: buildIndexRows (n.node_id :: seen) ns

/-- Source function `build_index`, viewed as the list of stored rows. -/
def build_index (nodes : List Node) : List Node := buildIndexRows [] nodes

theorem buildIndexRows_ids (ns : List Node) : ∀ seen : List String,
    ((buildIndexRows seen ns).map Node.node_id).Nodup ∧
    ∀ x ∈ (buildIndexRows seen ns).map Node.node_id, x ∉ seen := by
  induction ns with
  | nil => intro seen; exact ⟨List.nodup_nil, by simp [buildIndexRows]⟩
  | cons n ns ih =>
    intro seen
    by_cases hid : n.node_id ∈ seen
    · rw [buildIndexRows, if_pos hid]
      exact ih seen
    · rw [buildIndexRows, if_neg hid]
      obtain ⟨ih1, ih2⟩ := ih (n.node_id :: seen)
      refine ⟨?_, ?_⟩
      · rw [List.map_cons, List.nodup_cons]
        refine ⟨?_, ih1⟩
        intro hmem
        exact ih2 _ hmem (List.mem_cons_self _ _)
      · intro x hx
        rw [List.map_cons] at hx
        rcases List.mem_cons.mp hx with h1 | h2
        · rw [h1]; exact hid
        · intro hxs
          exact ih2 x h2 (List.mem_cons_of_mem _ hxs)

theorem buildIndexRows_filter_of_seen (ns : List Node) : ∀ (seen : List String)
    (k : String), k ∈ seen →
    (buildIndexRows seen ns).filter (fun n => n.node_id = k) = [] := by
  induction ns with
  | nil => intro seen k _; simp [buildIndexRows]
  | cons n ns ih =>
    intro seen k hk
    by_cases hid : n.node_id ∈ seen
    · rw [buildIndexRows, if_pos hid]
      exact ih seen k hk
    · rw [buildIndexRows, if_neg hid]
      have hne : ¬ (n.node_id = k) := by
        intro he
        rw [he] at hid
        exact hid hk
      simp only [List.filter_cons, hne, decide_eq_true_eq, if_neg hne, decide_eq_false hne]
      exact ih _ k (List.mem_cons_of_mem _ hk)

theorem buildIndexRows_filter_take (ns : List Node) : ∀ (seen : List String)
    (k : String), k ∉ seen →
    (buildIndexRows seen ns).filter (fun n => n.node_id = k) =
      (ns.filter (fun n => n.node_id = k)).take 1 := by
  induction ns with
  | nil => intro seen k _; simp [buildIndexRows]
  | cons n ns ih =>
    intro seen k hk
    by_cases hid : n.node_id ∈ seen
    · rw [buildIndexRows, if_pos hid]
      have hne : ¬ (n.node_id = k) := by
        intro he
        rw [he] at hid
        exact hk hid
      rw [ih seen k hk]
      simp only [List.filter_cons, decide_eq_false hne, if_neg hne]
      simp
    · rw [buildIndexRows, if_neg hid]
      by_cases heq : n.node_id = k
      · simp only [List.filter_cons, heq, decide_eq_true_eq, eq_self_iff_true,
          if_true]
        rw [buildIndexRows_filter_of_seen ns (k :: seen) k (List.mem_cons_self _ _)]
        simp
      · have hk2 : k ∉ n.node_id :: seen := by
          intro hm
          rcases List.mem_cons.mp hm with h1 | h2
          · exact heq h1.symm
          · exact hk h2
        simp only [List.filter_cons, decide_eq_false heq, if_neg heq]
        exact ih _ k hk2

/-- C4: the store built by `build_index` holds at most one row per node id;
for every id, the stored rows with that id are exactly the first occurrence
in input order (later occurrences are dropped). -/
theorem build_index_dedup_first_wins (nodes : List Node) :
    ((build_index nodes).map Node.node_id).Nodup ∧
    ∀ k : String, (build_index nodes).filter (fun n => n.node_id = k) =
      (nodes.filter (fun n => n.node_id = k)).take 1 := by
  refine ⟨(buildIndexRows_ids nodes []).1, ?_⟩
  intro k
  exact buildIndexRows_filter_take nodes [] k (by simp)

/-! ## C7: fallback tokenizer and LIKE substring matcher -/

/-- Character class of the tokenizer regex `[A-Za-z0-9一-鿿]`. -/
def isTokenChar (c : Char) : Bool :=
  (48 ≤ c.toNat && c.toNat ≤ 57) || (65 ≤ c.toNat && c.toNat ≤ 90) ||
    (97 ≤ c.toNat && c.toNat ≤ 122) || (19968 ≤ c.toNat && c.toNat ≤ 40959)

/-- Python `re.findall(r"[A-Za-z0-9一-鿿]+", raw)`: the maximal
runs of token characters. -/
def tokenRuns : List Char → List (List Char)
  | [] => []
  | [c] => if isTokenChar c then [[c]] else []
  | c :: d :: cs =>
    if isTokenChar c then
      (if isTokenChar d then
        (match tokenRuns (d :: cs) with
         | r :: rs => (c :: r) :: rs
         | [] => [[c]])
       else [c] :: tokenRuns (d :: cs))
    else tokenRuns (d :: cs)

/-- The loop of `_prepare_search_tokens`: strip each candidate token, drop
tokens shorter than two characters, deduplicate case-insensitively keeping
the first occurrence. -/
def dedupTokens : List String → List String → List String
  | _, [] => []
  | seen, t :: ts =>
    let value := pyStrip t
    if strLen value < 2 then dedupTokens seen ts
    else
      let key := asciiLower value
      if key ∈ seen then dedupTokens seen ts
      else value :: dedupTokens (key :: seen) ts

/-- Source function `_prepare_search_tokens`. -/
def _prepare_search_tokens (text : String) : List String :=
  let raw := pyStrip text
  if raw = "" then []
  else dedupTokens [] (raw :: (tokenRuns raw.toList).map List.asString)

/-- SQLite LIKE character comparison: case-insensitive on ASCII. -/
def sqliteCharEq (a b : Char) : Bool := asciiLowerChar a = asciiLowerChar b

/-- SQLite LIKE pattern matching (`%` any run, `_` any character), with a
fuel argument; each step shortens pattern or text, so fuel
`pattern.length + text.length + 1` always suffices. -/
def likeMatchGo : Nat → List Char → List Char → Bool
  | 0, _, _ => false
  | _ + 1, [], [] => true
  | _ + 1, [], _ :: _ => false
  | fuel + 1, '%' :: ps, s =>
    likeMatchGo fuel ps s ||
      (match s with | [] => false | _ :: s2 => likeMatchGo fuel ('%' :: ps) s2)
  | fuel + 1, '_' :: ps, s =>
    (match s with | [] => false | _ :: s2 => likeMatchGo fuel ps s2)
  | fuel + 1, p :: ps, s =>
    (match s with | [] => false | c :: s2 => sqliteCharEq p c && likeMatchGo fuel ps s2)

def likeMatch (pattern text : List Char) : Bool :=
  likeMatchGo (pattern.length + text.length + 1) pattern text

/-- One disjunct block of the `WHERE` clause of `_search_with_like_tokens`:
the token, wrapped in `%`, LIKE-matches one of the six indexed columns. -/
def nodeFieldsLike (t : String) (n : Node) : Bool :=
  let pat := '%' :: (t.toList ++ ['%'])
  likeMatch pat n.title.toList || likeMatch pat n.sect.toList ||
    likeMatch pat n.content.toList || likeMatch pat n.topic.toList ||
    likeMatch pat n.query_exec_title.toList || likeMatch pat n.query_cmd.toList

/-- Ordering key of `ORDER BY length(content) ASC` (SQLite `length` counts
characters of a text value). -/
def contentLenLe (a b : Node) : Prop := strLen a.content ≤ strLen b.content

instance : DecidableRel contentLenLe := fun a b =>
  inferInstanceAs (Decidable (strLen a.content ≤ strLen b.content))

/-- Source function `_search_with_like_tokens`: rows satisfying the OR of
all token blocks, ordered by ascending content length (stable), capped at
the limit. -/
def _search_with_like_tokens (store : List Node) (query : String)
    (limit : Nat) : List Node :=
  let uniq := _prepare_search_tokens query
  if uniq = [] then []
  else
    (List.insertionSort contentLenLe
      (store.filter (fun n => uniq.any (fun t => nodeFieldsLike t n)))).take limit

/-- Plain case-sensitive substring occurrence, used to state what the
claim's phrase `occurs as a substring` means. -/
def isSubChars (needle : List Char) : List Char → Bool
  | [] => needle.isEmpty
  | c :: t => needle.isPrefixOf (c :: t) || isSubChars needle t

def strHasSub (hay needle : String) : Bool := isSubChars needle.toList hay.toList

theorem isTokenChar_ge {c : Char} (h : isTokenChar c = true) : 33 ≤ c.toNat := by
  unfold isTokenChar at h
  simp only [Bool.or_eq_true, Bool.and_eq_true, decide_eq_true_eq] at h
  rcases h with ((h | h) | h) | h <;> omega

theorem tokenRuns_all_token (cs : List Char) :
    ∀ r ∈ tokenRuns cs, r ≠ [] ∧ ∀ c ∈ r, isTokenChar c = true := by
  induction cs with
  | nil => intro r hr; simp [tokenRuns] at hr
  | cons c cs ih =>
    intro r hr
    cases cs with
    | nil =>
      by_cases hc : isTokenChar c = true
      · simp only [tokenRuns, hc, if_true] at hr
        rcases List.mem_singleton.mp hr with rfl
        exact ⟨by simp, by intro x hx; rcases List.mem_singleton.mp hx with rfl; exact hc⟩
      · simp only [tokenRuns, hc, if_false] at hr
        simp at hr
    | cons d ds =>
      by_cases hc : isTokenChar c = true
      · by_cases hd : isTokenChar d = true
        · rw [tokenRuns, if_pos hc, if_pos hd] at hr
          cases hrs : tokenRuns (d :: ds) with
          | nil =>
            rw [hrs] at hr
            rcases List.mem_singleton.mp hr with rfl
            exact ⟨by simp, by intro x hx; rcases List.mem_singleton.mp hx with rfl; exact hc⟩
          | cons r0 rs =>
            rw [hrs] at hr
            rcases List.mem_cons.mp hr with rfl | hmem
            · have h0 := ih r0 (by rw [hrs]; exact List.mem_cons_self _ _)
              refine ⟨by simp, ?_⟩
              intro x hx
              rcases List.mem_cons.mp hx with rfl | hx2
              · exact hc
              · exact h0.2 x hx2
            · exact ih r (by rw [hrs]; exact List.mem_cons_of_mem _ hmem)
        · rw [tokenRuns, if_pos hc, if_neg hd] at hr
          rcases List.mem_cons.mp hr with rfl | hmem
          · exact ⟨by simp, by intro x hx; rcases List.mem_singleton.mp hx with rfl; exact hc⟩
          · exact ih r hmem
      · rw [tokenRuns, if_neg hc] at hr
        exact ih r hr

theorem pyStripChars_of_all_nonws {r : List Char}
    (h : ∀ c ∈ r, isPySpace c = false) : pyStripChars r = r := by
  refine pyStripChars_of_ok ?_ ?_
  · cases r with
    | nil => trivial
    | cons c t => exact h c (List.mem_cons_self _ _)
  · rw [trailOk_iff]
    intro c hc
    have hr : c ∈ r.reverse.head? := by rw [List.head?_reverse]; exact hc
    exact h c (List.mem_reverse.mp (List.mem_of_mem_head? hr))

theorem dedupTokens_spec : ∀ (ts seen : List String),
    (∀ t ∈ dedupTokens seen ts, 2 ≤ strLen t ∧ ∃ u ∈ ts, t = pyStrip u) ∧
    (∀ u ∈ ts, 2 ≤ strLen (pyStrip u) → asciiLower (pyStrip u) ∈ seen ∨
      ∃ t ∈ dedupTokens seen ts, asciiLower t = asciiLower (pyStrip u)) ∧
    ((dedupTokens seen ts).map asciiLower).Nodup ∧
    (∀ t ∈ dedupTokens seen ts, asciiLower t ∉ seen) := by
  intro ts
  induction ts with
  | nil =>
    intro seen
    refine ⟨?_, ?_, ?_, ?_⟩ <;> simp [dedupTokens]
  | cons t0 ts ih =>
    intro seen
    by_cases hlen : strLen (pyStrip t0) < 2
    · have hred : dedupTokens seen (t0 :: ts) = dedupTokens seen ts := by
        rw [dedupTokens, if_pos hlen]
      rw [hred]
      obtain ⟨i1, i2, i3, i4⟩ := ih seen
      refine ⟨?_, ?_, i3, i4⟩
      · intro t ht
        obtain ⟨hl, u, hu, he⟩ := i1 t ht
        exact ⟨hl, u, List.mem_cons_of_mem _ hu, he⟩
      · intro u hu h2
        rcases List.mem_cons.mp hu with rfl | hu2
        · omega
        · exact i2 u hu2 h2
    · by_cases hkey : asciiLower (pyStrip t0) ∈ seen
      · have hred : dedupTokens seen (t0 :: ts) = dedupTokens seen ts := by
          rw [dedupTokens, if_neg hlen, if_pos hkey]
        rw [hred]
        obtain ⟨i1, i2, i3, i4⟩ := ih seen
        refine ⟨?_, ?_, i3, i4⟩
        · intro t ht
          obtain ⟨hl, u, hu, he⟩ := i1 t ht
          exact ⟨hl, u, List.mem_cons_of_mem _ hu, he⟩
        · intro u hu h2
          rcases List.mem_cons.mp hu with rfl | hu2
          · exact Or.inl hkey
          · exact i2 u hu2 h2
      · have hred : dedupTokens seen (t0 :: ts) =
            pyStrip t0 :: dedupTokens (asciiLower (pyStrip t0) :: seen) ts := by
          rw [dedupTokens, if_neg hlen, if_neg hkey]
        rw [hred]
        obtain ⟨i1, i2, i3, i4⟩ := ih (asciiLower (pyStrip t0) :: seen)
        refine ⟨?_, ?_, ?_, ?_⟩
        · intro t ht
          rcases List.mem_cons.mp ht with rfl | ht2
          · exact ⟨by omega, t0, List.mem_cons_self _ _, rfl⟩
          · obtain ⟨hl, u, hu, he⟩ := i1 t ht2
            exact ⟨hl, u, List.mem_cons_of_mem _ hu, he⟩
        · intro u hu h2
          rcases List.mem_cons.mp hu with rfl | hu2
          · exact Or.inr ⟨pyStrip u, List.mem_cons_self _ _, rfl⟩
          · rcases i2 u hu2 h2 with hin | ⟨t, ht, he⟩
            · rcases List.mem_cons.mp hin with heq | hin2
              · exact Or.inr ⟨pyStrip t0, List.mem_cons_self _ _, heq.symm⟩
              · exact Or.inl hin2
            · exact Or.inr ⟨t, List.mem_cons_of_mem _ ht, he⟩
        · rw [List.map_cons, List.nodup_cons]
          refine ⟨?_, i3⟩
          intro hmem
          rw [List.mem_map] at hmem
          obtain ⟨t, ht, he⟩ := hmem
          exact i4 t ht (by rw [he]; exact List.mem_cons_self _ _)
        · intro t ht
          rcases List.mem_cons.mp ht with rfl | ht2
          · exact hkey
          · intro hmem
            exact i4 t ht2 (List.mem_cons_of_mem _ hmem)

instance : IsTotal Node contentLenLe := ⟨fun a b => Nat.le_total _ _⟩

instance : IsTrans Node contentLenLe := ⟨fun _ _ _ h1 h2 => Nat.le_trans h1 h2⟩

theorem pyStrip_asString_of_run {r : List Char}
    (hr : ∀ c ∈ r, isTokenChar c = true) : pyStrip r.asString = r.asString := by
  unfold pyStrip
  rw [toList_asString, pyStripChars_of_all_nonws]
  intro c hc
  exact isPySpace_eq_false_of_ge (isTokenChar_ge (hr c hc))

/-- C7 (amended): the fallback tokenizer produces the stripped raw string
(when it has at least two characters) plus every alphanumeric/CJK run of
length at least two, deduplicated case-insensitively; the fallback matcher
returns only store rows LIKE-matched by at least one token (ASCII
case-insensitive, `%`/`_` wildcards), ordered by ascending content length,
capped at the limit, and complete whenever all matching rows fit within the
limit. -/
theorem fallback_tokenizer_and_matcher (store : List Node) (query : String)
    (limit : Nat) :
    (∀ t ∈ _prepare_search_tokens query, 2 ≤ strLen t ∧
      (t = pyStrip query ∨ t.toList ∈ tokenRuns (pyStrip query).toList)) ∧
    (2 ≤ strLen (pyStrip query) → pyStrip query ∈ _prepare_search_tokens query) ∧
    (∀ u ∈ tokenRuns (pyStrip query).toList, 2 ≤ u.length →
      ∃ t ∈ _prepare_search_tokens query, asciiLower t = asciiLower u.asString) ∧
    ((_prepare_search_tokens query).map asciiLower).Nodup ∧
    (∀ r ∈ _search_with_like_tokens store query limit,
      r ∈ store ∧ ∃ t ∈ _prepare_search_tokens query, nodeFieldsLike t r = true) ∧
    (_search_with_like_tokens store query limit).length ≤ limit ∧
    List.Sorted contentLenLe (_search_with_like_tokens store query limit) ∧
    ((store.filter (fun n => (_prepare_search_tokens query).any
        (fun t => nodeFieldsLike t n))).length ≤ limit →
      ∀ r ∈ store, (∃ t ∈ _prepare_search_tokens query, nodeFieldsLike t r = true) →
        r ∈ _search_with_like_tokens store query limit) := by
  have htok : ∀ t ∈ _prepare_search_tokens query, 2 ≤ strLen t ∧
      (t = pyStrip query ∨ t.toList ∈ tokenRuns (pyStrip query).toList) := by
    intro t ht
    unfold _prepare_search_tokens at ht
    by_cases hraw : pyStrip query = ""
    · rw [if_pos hraw] at ht
      simp at ht
    · rw [if_neg hraw] at ht
      obtain ⟨i1, _, _, _⟩ := dedupTokens_spec
        (pyStrip query :: (tokenRuns (pyStrip query).toList).map List.asString) []
      obtain ⟨hl, u, hu, he⟩ := i1 t ht
      refine ⟨hl, ?_⟩
      rcases List.mem_cons.mp hu with rfl | hu2
      · exact Or.inl (by rw [he, pyStrip_idem])
      · obtain ⟨r, hr, rfl⟩ := List.mem_map.mp hu2
        have hfix := pyStrip_asString_of_run (fun c hc =>
          (tokenRuns_all_token _ r hr).2 c hc)
        rw [he, hfix]
        exact Or.inr (by rw [toList_asString]; exact hr)
  have hraw_mem : 2 ≤ strLen (pyStrip query) →
      pyStrip query ∈ _prepare_search_tokens query := by
    intro h2
    have hraw : pyStrip query ≠ "" := by
      intro he
      rw [he] at h2
      exact absurd h2 (by decide)
    unfold _prepare_search_tokens
    rw [if_neg hraw]
    rw [dedupTokens]
    simp only [pyStrip_idem]
    rw [if_neg (by omega), if_neg (by simp)]
    exact List.mem_cons_self _ _
  have hcomplete : ∀ u ∈ tokenRuns (pyStrip query).toList, 2 ≤ u.length →
      ∃ t ∈ _prepare_search_tokens query, asciiLower t = asciiLower u.asString := by
    intro u hu h2
    have hraw : pyStrip query ≠ "" := by
      intro he
      rw [he] at hu
      simp [tokenRuns] at hu
    have hfix := pyStrip_asString_of_run (fun c hc =>
      (tokenRuns_all_token _ u hu).2 c hc)
    unfold _prepare_search_tokens
    rw [if_neg hraw]
    obtain ⟨_, i2, _, _⟩ := dedupTokens_spec
      (pyStrip query :: (tokenRuns (pyStrip query).toList).map List.asString) []
    have hu2 : u.asString ∈
        pyStrip query :: (tokenRuns (pyStrip query).toList).map List.asString :=
      List.mem_cons_of_mem _ (List.mem_map.mpr ⟨u, hu, rfl⟩)
    have hlen2 : 2 ≤ strLen (pyStrip u.asString) := by
      rw [hfix]
      show 2 ≤ u.asString.toList.length
      rw [toList_asString]
      exact h2
    rcases i2 u.asString hu2 hlen2 with hin | ⟨t, ht, he⟩
    · simp at hin
    · exact ⟨t, ht, by rw [he, hfix]⟩
  have hnodup : ((_prepare_search_tokens query).map asciiLower).Nodup := by
    unfold _prepare_search_tokens
    by_cases hraw : pyStrip query = ""
    · rw [if_pos hraw]
      exact List.nodup_nil
    · rw [if_neg hraw]
      exact (dedupTokens_spec _ []).2.2.1
  refine ⟨htok, hraw_mem, hcomplete, hnodup, ?_, ?_, ?_, ?_⟩
  all_goals unfold _search_with_like_tokens
  all_goals by_cases huniq : _prepare_search_tokens query = []
  · rw [if_pos huniq]
    intro r hr
    simp at hr
  · rw [if_neg huniq]
    intro r hr
    have hr2 : r ∈ List.insertionSort contentLenLe
        (store.filter (fun n => (_prepare_search_tokens query).any
          (fun t => nodeFieldsLike t n))) :=
      (List.take_sublist _ _).subset hr
    have hr3 := (List.perm_insertionSort contentLenLe _).mem_iff.mp hr2
    obtain ⟨hs, hany⟩ := List.mem_filter.mp hr3
    exact ⟨hs, List.any_eq_true.mp hany⟩
  · rw [if_pos huniq]
    simp
  · rw [if_neg huniq]
    rw [List.length_take]
    exact inf_le_left
  · rw [if_pos huniq]
    exact List.sorted_nil
  · rw [if_neg huniq]
    exact (List.sorted_insertionSort contentLenLe _).sublist (List.take_sublist _ _)
  · rw [if_pos huniq]
    intro _ r _ ⟨t, ht, _⟩
    rw [huniq] at ht
    simp at ht
  · rw [if_neg huniq]
    intro hlen r hr ⟨t, ht, hm⟩
    have hf : r ∈ store.filter (fun n => (_prepare_search_tokens query).any
        (fun t => nodeFieldsLike t n)) :=
      List.mem_filter.mpr ⟨hr, List.any_eq_true.mpr ⟨t, ht, hm⟩⟩
    have hlen2 : (List.insertionSort contentLenLe
        (store.filter (fun n => (_prepare_search_tokens query).any
          (fun t => nodeFieldsLike t n)))).length ≤ limit := by
      rw [(List.perm_insertionSort contentLenLe _).length_eq]
      exact hlen
    rw [List.take_of_length_le hlen2]
    exact (List.perm_insertionSort contentLenLe _).mem_iff.mpr hf

/-- A store row whose only indexed text is the upper-case title `AB`. -/
def c7RowUpper : Node := { node_id := "n1", node_type := "link", title := "AB" }

/-- A store row whose only indexed text is the title `abc`. -/
def c7RowWild : Node := { node_id := "n2", node_type := "link", title := "abc" }

/-- Counterexample to C7 as stated: the raw query string `a` is dropped by
the tokenizer rather than produced (its length is below two); the matcher
returns the row titled `AB` for the query `ab` although no token occurs as
a (case-sensitive) substring of any indexed field; and the token `a_c`
matches the title `abc` through the `_` wildcard of SQL LIKE although it is
not a substring of it. -/
theorem fallback_tokenizer_and_matcher_counterexample :
    _prepare_search_tokens "a" = [] ∧
    _prepare_search_tokens "ab" = ["ab"] ∧
    strHasSub "AB" "ab" = false ∧ strHasSub "" "ab" = false ∧
    _search_with_like_tokens [c7RowUpper] "ab" 5 = [c7RowUpper] ∧
    _prepare_search_tokens "a_c" = ["a_c"] ∧
    strHasSub "abc" "a_c" = false ∧
    _search_with_like_tokens [c7RowWild] "a_c" 5 = [c7RowWild] := by
  refine ⟨by decide, by decide, by decide, by decide, by decide, by decide,
    by decide, by decide⟩

/-- Witness for the amended C7 on a concrete store and query. -/
theorem fallback_tokenizer_and_matcher_witness :
    pyStrip "ab" ∈ _prepare_search_tokens "ab" ∧
    c7RowUpper ∈ _search_with_like_tokens [c7RowUpper] "ab" 5 :=
  ⟨(fallback_tokenizer_and_matcher [c7RowUpper] "ab" 5).2.1 (by decide),
   (fallback_tokenizer_and_matcher [c7RowUpper] "ab" 5).2.2.2.2.2.2.2
     (by decide) c7RowUpper (by decide) ⟨"ab", by decide, by decide⟩⟩

/-! ### C3: expansion stage of `search_index` -/

/-- A search hit: an index row together with its `match_type` tag. -/
structure Hit where
  n : Node
  match_type : String
deriving Repr, DecidableEq

/-- The child-row query inside `_append_section_children`: rows of the store
with the given topic and section and `node_type != 'category'`, ordered by
ascending content length, limited to `max(1, per_section_limit)`. -/
def sectionChildren (store : List Node) (topic_name section_name : String)
    (per_section_limit : Nat) : List Node :=
  (List.insertionSort contentLenLe
    (store.filter (fun r =>
      r.topic == topic_name && r.sect == section_name && r.node_type != "category"))).take
    (max 1 per_section_limit)

/-- One iteration of the row loop of `_append_section_children`: skip rows with
an empty or already-seen `node_id`, otherwise record the id and append the row
tagged with the match type. -/
def expandStep (mt : String) (acc : List String × List Hit) (row : Node) :
    List String × List Hit :=
  if row.node_id = "" ∨ row.node_id ∈ acc.1 then acc
  else (row.node_id :: acc.1, acc.2 ++ [⟨row, mt⟩])

/-- Source helper `_append_section_children` (state = seen ids × merged hits). -/
def _append_section_children (store : List Node) (mt : String)
    (per_section_limit : Nat) (st : List String × List Hit)
    (key : String × String) : List String × List Hit :=
  if key.2 = "" ∨ key.1 = "" then st
  else (sectionChildren store key.1 key.2 per_section_limit).foldl (expandStep mt) st

/-- Python ordering on `(str, str)` pairs, used by `sorted(related_keys)`. -/
def pairLe (a b : String × String) : Prop :=
  a.1 < b.1 ∨ (a.1 = b.1 ∧ ¬ b.2 < a.2)

instance : DecidableRel pairLe := fun a b =>
  inferInstanceAs (Decidable (_ ∨ _))

/-- `sorted(set)` over `(topic, section)` pairs. -/
def sortedPairSet (l : List (String × String)) : List (String × String) :=
  List.insertionSort pairLe l.dedup

/-- The part of `search_index` after direct retrieval: tag direct rows as
`"direct"`, then expand category hits and related link sections. -/
def search_expand (store : List Node) (direct : List Node)
    (expand_categories : Bool) (expand_limit_per_category : Nat)
    (expand_related_sections : Bool) (related_limit_per_section : Nat) : List Hit :=
  let hits : List Hit := direct.map (fun n => ⟨n, "direct"⟩)
  if !expand_categories then hits
  else
    let category_keys :=
      ((direct.filter (fun n => n.node_type == "category")).map (fun n => (n.topic, n.sect)))
    let seen_ids := hits.map (fun x => x.n.node_id)
    let st1 := category_keys.foldl
      (_append_section_children store "category_child" expand_limit_per_category)
      (seen_ids, hits)
    if expand_related_sections then
      let related_keys := sortedPairSet
        ((direct.filter (fun n => n.node_type == "link")).map (fun n => (n.topic, n.sect)))
      (related_keys.foldl
        (_append_section_children store "section_related" related_limit_per_section) st1).2
    else st1.2

/-- Source function `search_index`, with direct-row retrieval (the FTS query or
the `_search_with_like_tokens` fallback) abstracted as `directFn`. -/
def search_index (store : List Node) (directFn : String → Nat → List Node)
    (query : String) (limit : Nat)
    (expand_categories : Bool) (expand_limit_per_category : Nat)
    (expand_related_sections : Bool) (related_limit_per_section : Nat) : List Hit :=
  search_expand store (directFn query limit) expand_categories
    expand_limit_per_category expand_related_sections related_limit_per_section

theorem expandStep_sub (mt : String) (st : List String × List Hit) (row : Node) :
    ∀ x ∈ st.2, x ∈ (expandStep mt st row).2 := by
  intro x hx
  unfold expandStep
  split
  · exact hx
  · exact List.mem_append_left _ hx

theorem foldl_expandStep_sub (mt : String) (rows : List Node) :
    ∀ st : List String × List Hit, ∀ x ∈ st.2, x ∈ (rows.foldl (expandStep mt) st).2 := by
  induction rows with
  | nil => intro st x hx; exact hx
  | cons r rs ih =>
      intro st x hx
      exact ih (expandStep mt st r) x (expandStep_sub mt st r x hx)

theorem foldl_expandStep_mem (mt : String) (rows : List Node) :
    ∀ st : List String × List Hit, ∀ x ∈ (rows.foldl (expandStep mt) st).2,
      x ∈ st.2 ∨ ∃ row ∈ rows, x = ⟨row, mt⟩ := by
  induction rows with
  | nil => intro st x hx; exact Or.inl hx
  | cons r rs ih =>
      intro st x hx
      rcases ih (expandStep mt st r) x hx with h1 | ⟨row, hrow, hx2⟩
      · unfold expandStep at h1
        revert h1
        split
        · intro h1; exact Or.inl h1
        · intro h1
          rcases List.mem_append.mp h1 with h2 | h2
          · exact Or.inl h2
          · exact Or.inr ⟨r, List.mem_cons_self r rs, List.mem_singleton.mp h2⟩
      · exact Or.inr ⟨row, List.mem_cons_of_mem r hrow, hx2⟩

theorem sectionChildren_mem (store : List Node) (t s : String) (k : Nat) :
    ∀ r ∈ sectionChildren store t s k,
      r ∈ store ∧ r.topic = t ∧ r.sect = s ∧ r.node_type ≠ "category" := by
  intro r hr
  unfold sectionChildren at hr
  have h1 := (List.take_sublist _ _).mem hr
  have h2 := (List.perm_insertionSort contentLenLe _).mem_iff.mp h1
  have h3 := List.mem_filter.mp h2
  refine ⟨h3.1, ?_, ?_, ?_⟩
  · have := h3.2
    simp only [Bool.and_eq_true, beq_iff_eq, bne_iff_ne] at this
    exact this.1.1
  · have := h3.2
    simp only [Bool.and_eq_true, beq_iff_eq, bne_iff_ne] at this
    exact this.1.2
  · have := h3.2
    simp only [Bool.and_eq_true, beq_iff_eq, bne_iff_ne] at this
    exact this.2

theorem append_section_children_sub (store : List Node) (mt : String) (pl : Nat)
    (st : List String × List Hit) (key : String × String) :
    ∀ x ∈ st.2, x ∈ (_append_section_children store mt pl st key).2 := by
  intro x hx
  unfold _append_section_children
  split
  · exact hx
  · exact foldl_expandStep_sub mt _ st x hx

theorem append_section_children_mem (store : List Node) (mt : String) (pl : Nat)
    (st : List String × List Hit) (key : String × String) :
    ∀ x ∈ (_append_section_children store mt pl st key).2,
      x ∈ st.2 ∨ ∃ row, row.topic = key.1 ∧ row.sect = key.2 ∧ x = Hit.mk row mt := by
  intro x hx
  unfold _append_section_children at hx
  revert hx
  split
  · intro hx; exact Or.inl hx
  · intro hx
    rcases foldl_expandStep_mem mt _ st x hx with h1 | ⟨row, hrow, hx2⟩
    · exact Or.inl h1
    · have := sectionChildren_mem store key.1 key.2 pl row hrow
      exact Or.inr ⟨row, this.2.1, this.2.2.1, hx2⟩

theorem foldl_append_children_sub (store : List Node) (mt : String) (pl : Nat)
    (keys : List (String × String)) :
    ∀ st : List String × List Hit, ∀ x ∈ st.2,
      x ∈ (keys.foldl (_append_section_children store mt pl) st).2 := by
  induction keys with
  | nil => intro st x hx; exact hx
  | cons k ks ih =>
      intro st x hx
      exact ih _ x (append_section_children_sub store mt pl st k x hx)

theorem foldl_append_children_mem (store : List Node) (mt : String) (pl : Nat)
    (keys : List (String × String)) :
    ∀ st : List String × List Hit,
      ∀ x ∈ (keys.foldl (_append_section_children store mt pl) st).2,
      x ∈ st.2 ∨ ∃ key ∈ keys, ∃ row, row.topic = key.1 ∧ row.sect = key.2 ∧
        x = Hit.mk row mt := by
  induction keys with
  | nil => intro st x hx; exact Or.inl hx
  | cons k ks ih =>
      intro st x hx
      rcases ih _ x hx with h1 | ⟨key, hkey, row, h2⟩
      · rcases append_section_children_mem store mt pl st k x h1 with h2 | ⟨row, h3⟩
        · exact Or.inl h2
        · exact Or.inr ⟨k, List.mem_cons_self k ks, row, h3⟩
      · exact Or.inr ⟨key, List.mem_cons_of_mem k hkey, row, h2⟩

theorem search_expand_scoped
    (store direct : List Node) (ec : Bool) (elc : Nat) (ers : Bool) (rls : Nat)
    (h : Hit) (hmem : h ∈ search_expand store direct ec elc ers rls) :
    (h.match_type = "category_child" →
      ∃ hd ∈ search_expand store direct ec elc ers rls,
        hd.match_type = "direct" ∧ hd.n.node_type = "category" ∧
        h.n.topic = hd.n.topic ∧ h.n.sect = hd.n.sect) ∧
    (h.match_type = "section_related" →
      ∃ hd ∈ search_expand store direct ec elc ers rls,
        hd.match_type = "direct" ∧ hd.n.node_type = "link" ∧
        h.n.topic = hd.n.topic ∧ h.n.sect = hd.n.sect) := by
  cases ec with
  | false =>
      simp only [search_expand, Bool.not_false, if_true] at hmem ⊢
      rcases List.mem_map.mp hmem with ⟨n, hn, rfl⟩
      constructor
      · intro hmt; exact absurd hmt (by simp)
      · intro hmt; exact absurd hmt (by simp)
  | true =>
      simp only [search_expand, Bool.not_true, Bool.false_eq_true, if_false] at hmem ⊢
      cases ers with
      | false =>
          simp only [Bool.false_eq_true, if_false] at hmem ⊢
          rcases foldl_append_children_mem store "category_child" elc _ _ h hmem with
            h1 | ⟨key, hkey, row, ht, hs, rfl⟩
          · rcases List.mem_map.mp h1 with ⟨n, hn, rfl⟩
            constructor
            · intro hmt; exact absurd hmt (by simp)
            · intro hmt; exact absurd hmt (by simp)
          · constructor
            · intro _
              rcases List.mem_map.mp hkey with ⟨d, hd1, rfl⟩
              have hd2 := List.mem_filter.mp hd1
              refine ⟨⟨d, "direct"⟩, ?_, rfl, ?_, ?_, ?_⟩
              · exact foldl_append_children_sub store "category_child" elc _ _
                  _ (List.mem_map.mpr ⟨d, hd2.1, rfl⟩)
              · exact beq_iff_eq.mp hd2.2
              · exact ht
              · exact hs
            · intro hmt; exact absurd hmt (by simp)
      | true =>
          simp only [if_true] at hmem ⊢
          rcases foldl_append_children_mem store "section_related" rls _ _ h hmem with
            h1 | ⟨key, hkey, row, ht, hs, rfl⟩
          · rcases foldl_append_children_mem store "category_child" elc _ _ h h1 with
              h2 | ⟨key, hkey, row, ht, hs, rfl⟩
            · rcases List.mem_map.mp h2 with ⟨n, hn, rfl⟩
              constructor
              · intro hmt; exact absurd hmt (by simp)
              · intro hmt; exact absurd hmt (by simp)
            · constructor
              · intro _
                rcases List.mem_map.mp hkey with ⟨d, hd1, rfl⟩
                have hd2 := List.mem_filter.mp hd1
                refine ⟨⟨d, "direct"⟩, ?_, rfl, ?_, ?_, ?_⟩
                · refine foldl_append_children_sub store "section_related" rls _ _ _ ?_
                  exact foldl_append_children_sub store "category_child" elc _ _
                    _ (List.mem_map.mpr ⟨d, hd2.1, rfl⟩)
                · exact beq_iff_eq.mp hd2.2
                · exact ht
                · exact hs
              · intro hmt; exact absurd hmt (by simp)
          · constructor
            · intro hmt; exact absurd hmt (by simp)
            · intro _
              have hkey2 : key ∈ ((direct.filter (fun n => n.node_type == "link")).map
                  (fun n => (n.topic, n.sect))) := by
                have := (List.perm_insertionSort pairLe _).mem_iff.mp hkey
                exact List.mem_dedup.mp this
              rcases List.mem_map.mp hkey2 with ⟨d, hd1, rfl⟩
              have hd2 := List.mem_filter.mp hd1
              refine ⟨⟨d, "direct"⟩, ?_, rfl, ?_, ?_, ?_⟩
              · refine foldl_append_children_sub store "section_related" rls _ _ _ ?_
                exact foldl_append_children_sub store "category_child" elc _ _
                  _ (List.mem_map.mpr ⟨d, hd2.1, rfl⟩)
              · exact beq_iff_eq.mp hd2.2
              · exact ht
              · exact hs

/-- **C3.** For every indexed node set and every query, each hit that
`search_index` returns with match_type `"category_child"` (respectively
`"section_related"`) shares its topic — and its section — with a direct hit of
node_type `"category"` (respectively `"link"`) in the same result list: the
direct hit whose (topic, section) key produced the expansion. Expansion never
appends a node from a different topic. -/
theorem search_expansion_topic_scoped
    (store : List Node) (directFn : String → Nat → List Node) (query : String)
    (limit : Nat) (ec : Bool) (elc : Nat) (ers : Bool) (rls : Nat) (h : Hit)
    (hmem : h ∈ search_index store directFn query limit ec elc ers rls) :
    (h.match_type = "category_child" →
      ∃ hd ∈ search_index store directFn query limit ec elc ers rls,
        hd.match_type = "direct" ∧ hd.n.node_type = "category" ∧
        h.n.topic = hd.n.topic ∧ h.n.sect = hd.n.sect) ∧
    (h.match_type = "section_related" →
      ∃ hd ∈ search_index store directFn query limit ec elc ers rls,
        hd.match_type = "direct" ∧ hd.n.node_type = "link" ∧
        h.n.topic = hd.n.topic ∧ h.n.sect = hd.n.sect) :=
  search_expand_scoped store (directFn query limit) ec elc ers rls h hmem

def c3Cat : Node :=
  { node_id := "c1", node_type := "category", topic := "T", sect := "S", title := "Cat" }

def c3Child : Node :=
  { node_id := "c2", node_type := "link", topic := "T", sect := "S",
    title := "Child", content := "x" }

/-- Witness for C3: on a two-node store whose direct hit is the category node,
the expanded `"category_child"` hit for the sibling link is covered by a
matching direct category hit with the same topic and section. -/
theorem search_expansion_topic_scoped_witness :
    ∃ hd ∈ search_index [c3Cat, c3Child] (fun _ _ => [c3Cat]) "q" 8 true 200 true 20,
      hd.match_type = "direct" ∧ hd.n.node_type = "category" ∧
      (Hit.mk c3Child "category_child").n.topic = hd.n.topic ∧
      (Hit.mk c3Child "category_child").n.sect = hd.n.sect :=
  (search_expansion_topic_scoped [c3Cat, c3Child] (fun _ _ => [c3Cat]) "q" 8
    true 200 true 20 ⟨c3Child, "category_child"⟩ (by decide)).1 rfl

/-! ### C2: `build_explore_candidates` visited filtering -/

/-- One entry of a navigation payload (`topic_navigation` / `knowledge_search`
/ `other_queries` item dict). -/
structure NavItem where
  title : String := ""
  query_kind : String := ""
  query_source : String := ""
  query_cmd : String := ""
  query_exec_title : String := ""
deriving Repr, DecidableEq

/-- A navigation payload as consumed by `build_navigation_candidates`. -/
structure NavPayload where
  topic_navigation : List NavItem := []
  knowledge_search : List NavItem := []
  other_queries : List NavItem := []
deriving Repr, DecidableEq

/-- The `mixed` interleaving: for each index take the topic-nav entry then the
knowledge-search entry, leftovers in order. -/
def interleave2 : List NavItem → List NavItem → List NavItem
  | [], ys => ys
  | x :: xs, [] => x :: interleave2 xs []
  | x :: xs, y :: ys => x :: y :: interleave2 xs ys

/-- Strategy-dependent ordering of the payload lists in
`build_navigation_candidates`. -/
def navOrdered (p : NavPayload) (strategy : String) : List NavItem :=
  if strategy = "search_first" then p.knowledge_search ++ p.topic_navigation
  else if strategy = "mixed" then interleave2 p.topic_navigation p.knowledge_search
  else p.topic_navigation ++ p.knowledge_search

/-- The `(query_kind, query_source, edge key)` dedup key of a navigation item. -/
def navKey (item : NavItem) : String × String × String :=
  (pyOr (pyStrip item.query_kind) "unknown", pyOr (pyStrip item.query_source) "unknown",
   _canonical_edge_key (pyStrip item.query_exec_title))

/-- The dedup/filter loop of `build_navigation_candidates`: drop items with an
empty stripped exec title, keep the first item per dedup key. -/
def navDedup (seen : List (String × String × String)) : List NavItem → List NavItem
  | [] => []
  | item :: rest =>
      if pyStrip item.query_exec_title = "" then navDedup seen rest
      else if navKey item ∈ seen then navDedup seen rest
      else item :: navDedup (navKey item :: seen) rest

/-- Source function `build_navigation_candidates`. -/
def build_navigation_candidates (p : NavPayload) (strategy : String)
    (include_other_queries : Bool) : List NavItem :=
  navDedup []
    (if include_other_queries then navOrdered p strategy ++ p.other_queries
     else navOrdered p strategy)

/-- The `source_priority` table selected by `edge_strategy`, as a function with
default 9. -/
def source_priority (edge_strategy sourceName : String) : Nat :=
  if edge_strategy = "command_searchin_backlink" then
    if sourceName = "command_section" then 0
    else if sourceName = "searchin_section" then 1
    else if sourceName = "backlink" then 2 else 9
  else if edge_strategy = "mixed_backlink" then
    if sourceName = "searchin_section" then 0
    else if sourceName = "command_section" then 0
    else if sourceName = "backlink" then 1 else 9
  else
    if sourceName = "searchin_section" then 0
    else if sourceName = "command_section" then 1
    else if sourceName = "backlink" then 2 else 9

/-- An explore candidate dict. -/
structure Candidate where
  title : String := ""
  query_kind : String := ""
  query_source : String := ""
  query_cmd : String := ""
  query_exec_title : String := ""
  input : String := ""
  source : String := ""
  priority : Nat := 9
  topic_key : String := ""
deriving Repr, DecidableEq

/-- The candidate dict built by `_append_nav` for one accepted item. -/
def navCandidate (strat src : String) (item : NavItem) : Candidate :=
  { title := item.title,
    query_kind := pyOr (pyStrip item.query_kind) "unknown",
    query_source := pyOr (pyStrip item.query_source) "unknown",
    query_cmd := pyStrip item.query_cmd,
    query_exec_title := pyStrip item.query_exec_title,
    input := _to_input_from_exec_title (pyStrip item.query_exec_title),
    source := src,
    priority := source_priority strat src,
    topic_key := _canonical_topic_key (root_topic_from_title (pyStrip item.query_exec_title)) }

/-- One iteration of `_append_nav` (state = seen exec keys × output list). -/
def appendNavStep (vE vT : List String) (strat src : String)
    (st : List String × List Candidate) (item : NavItem) :
    List String × List Candidate :=
  if pyStrip item.query_exec_title = "" then st
  else if _canonical_edge_key (pyStrip item.query_exec_title) = "" ∨
          _canonical_edge_key (pyStrip item.query_exec_title) ∈ st.1 ∨
          _canonical_edge_key (pyStrip item.query_exec_title) ∈ vE then st
  else if (pyOr (pyStrip item.query_kind) "unknown" = "topic_nav" ∨
           pyOr (pyStrip item.query_kind) "unknown" = "backlink") ∧
          _canonical_topic_key (root_topic_from_title (pyStrip item.query_exec_title)) ≠ "" ∧
          _canonical_topic_key (root_topic_from_title (pyStrip item.query_exec_title)) ∈ vT then st
  else
    (_canonical_edge_key (pyStrip item.query_exec_title) :: st.1,
     st.2 ++ [navCandidate strat src item])

/-- The title a backlink input resolves to (`resolve_title_from_input`, falling
back to the stripped input text when that raises). -/
def backlinkTitle (text : String) : String :=
  match resolve_title_from_input text with
  | some t => t
  | none => text

/-- The candidate dict built by `_append_backlinks` for one accepted input. -/
def backlinkCandidate (strat title : String) : Candidate :=
  { title := root_topic_from_title title,
    query_kind := "backlink",
    query_source := "graph",
    query_cmd := "",
    query_exec_title := title,
    input := _to_input_from_exec_title title,
    source := "backlink",
    priority := source_priority strat "backlink",
    topic_key := _canonical_topic_key (root_topic_from_title title) }

/-- One iteration of `_append_backlinks`. -/
def appendBacklinkStep (vE vT : List String) (strat : String)
    (st : List String × List Candidate) (inp : String) :
    List String × List Candidate :=
  if pyStrip inp = "" then st
  else if _canonical_edge_key (backlinkTitle (pyStrip inp)) = "" ∨
          _canonical_edge_key (backlinkTitle (pyStrip inp)) ∈ st.1 ∨
          _canonical_edge_key (backlinkTitle (pyStrip inp)) ∈ vE then st
  else if _canonical_topic_key (root_topic_from_title (backlinkTitle (pyStrip inp))) ≠ "" ∧
          _canonical_topic_key (root_topic_from_title (backlinkTitle (pyStrip inp))) ∈ vT then st
  else
    (_canonical_edge_key (backlinkTitle (pyStrip inp)) :: st.1,
     st.2 ++ [backlinkCandidate strat (backlinkTitle (pyStrip inp))])

/-- The final sort key ordering of `build_explore_candidates`:
`(priority, query_kind.lower(), query_exec_title.lower())`. -/
def candLe (a b : Candidate) : Prop :=
  a.priority < b.priority ∨ (a.priority = b.priority ∧
    (asciiLower a.query_kind < asciiLower b.query_kind ∨
     (asciiLower a.query_kind = asciiLower b.query_kind ∧
      ¬ asciiLower b.query_exec_title < asciiLower a.query_exec_title)))

instance : DecidableRel candLe := fun a b =>
  inferInstanceAs (Decidable (_ ∨ _))

/-- Source function `build_explore_candidates` (visited sets as lists). -/
def build_explore_candidates (searchin_navigation command_navigation : NavPayload)
    (backlink_inputs : List String) (visited_exec visited_topics : List String)
    (edge_strategy : String) (include_other_queries : Bool)
    (max_candidates : Nat) : List Candidate :=
  let st1 :=
    (build_navigation_candidates searchin_navigation "topic_first" include_other_queries).foldl
      (appendNavStep visited_exec visited_topics edge_strategy "searchin_section") ([], [])
  let st2 :=
    (build_navigation_candidates command_navigation "topic_first" include_other_queries).foldl
      (appendNavStep visited_exec visited_topics edge_strategy "command_section") st1
  let st3 := backlink_inputs.foldl
    (appendBacklinkStep visited_exec visited_topics edge_strategy) st2
  (List.insertionSort candLe st3.2).take (max 1 max_candidates)

/-- A candidate passes the visited filters: its edge key is unvisited, and if
its kind is topic-level its topic key is empty or unvisited. -/
def candFresh (vE vT : List String) (c : Candidate) : Prop :=
  _canonical_edge_key c.query_exec_title ∉ vE ∧
  ((c.query_kind = "topic_nav" ∨ c.query_kind = "backlink") →
    c.topic_key = "" ∨ c.topic_key ∉ vT)

theorem appendNavStep_fresh (vE vT : List String) (strat src : String)
    (st : List String × List Candidate) (item : NavItem)
    (hInv : ∀ c ∈ st.2, candFresh vE vT c) :
    ∀ c ∈ (appendNavStep vE vT strat src st item).2, candFresh vE vT c := by
  intro c hc
  unfold appendNavStep at hc
  revert hc
  split
  · intro hc; exact hInv c hc
  · split
    · intro hc; exact hInv c hc
    · split
      · intro hc; exact hInv c hc
      · intro hc
        rcases List.mem_append.mp hc with h1 | h1
        · exact hInv c h1
        · rcases List.mem_singleton.mp h1 with rfl
          constructor
          · simp only [navCandidate]
            rename_i hguard _
            push_neg at hguard
            exact hguard.2.2
          · intro hk
            simp only [navCandidate] at hk ⊢
            rename_i hguard htop
            rcases Classical.em (_canonical_topic_key
                (root_topic_from_title (pyStrip item.query_exec_title)) = "") with hB | hB
            · exact Or.inl hB
            · exact Or.inr (fun hC => htop ⟨hk, hB, hC⟩)

theorem appendBacklinkStep_fresh (vE vT : List String) (strat : String)
    (st : List String × List Candidate) (inp : String)
    (hInv : ∀ c ∈ st.2, candFresh vE vT c) :
    ∀ c ∈ (appendBacklinkStep vE vT strat st inp).2, candFresh vE vT c := by
  intro c hc
  unfold appendBacklinkStep at hc
  revert hc
  split
  · intro hc; exact hInv c hc
  · split
    · intro hc; exact hInv c hc
    · split
      · intro hc; exact hInv c hc
      · intro hc
        rcases List.mem_append.mp hc with h1 | h1
        · exact hInv c h1
        · rcases List.mem_singleton.mp h1 with rfl
          constructor
          · simp only [backlinkCandidate]
            rename_i hguard _
            push_neg at hguard
            exact hguard.2.2
          · intro hkind
            simp only [backlinkCandidate]
            rename_i hguard htop
            rcases Classical.em (_canonical_topic_key
                (root_topic_from_title (backlinkTitle (pyStrip inp))) = "") with hB | hB
            · exact Or.inl hB
            · exact Or.inr (fun hC => htop ⟨hB, hC⟩)

theorem foldl_appendNavStep_fresh (vE vT : List String) (strat src : String)
    (items : List NavItem) :
    ∀ st : List String × List Candidate, (∀ c ∈ st.2, candFresh vE vT c) →
      ∀ c ∈ (items.foldl (appendNavStep vE vT strat src) st).2, candFresh vE vT c := by
  induction items with
  | nil => intro st hInv; exact hInv
  | cons i is ih =>
      intro st hInv
      exact ih _ (appendNavStep_fresh vE vT strat src st i hInv)

theorem foldl_appendBacklinkStep_fresh (vE vT : List String) (strat : String)
    (inps : List String) :
    ∀ st : List String × List Candidate, (∀ c ∈ st.2, candFresh vE vT c) →
      ∀ c ∈ (inps.foldl (appendBacklinkStep vE vT strat) st).2, candFresh vE vT c := by
  induction inps with
  | nil => intro st hInv; exact hInv
  | cons i is ih =>
      intro st hInv
      exact ih _ (appendBacklinkStep_fresh vE vT strat st i hInv)

/-- **C2.** Every candidate returned by `build_explore_candidates` has an
unvisited canonical exec-title key, and — when its kind is topic-level
(`topic_nav` or `backlink`) — an empty or unvisited canonical topic key; and a
`kb_search` navigation item whose topic key is already visited but whose
exec-title key is fresh is NOT excluded: it still appears in the output. -/
theorem explore_candidates_visited_filter
    (sNav cNav : NavPayload) (bIn vE vT : List String)
    (strat : String) (ioq : Bool) (maxC : Nat) (item : NavItem) :
    (∀ c ∈ build_explore_candidates sNav cNav bIn vE vT strat ioq maxC,
      _canonical_edge_key c.query_exec_title ∉ vE ∧
      ((c.query_kind = "topic_nav" ∨ c.query_kind = "backlink") →
        c.topic_key = "" ∨ c.topic_key ∉ vT)) ∧
    (pyStrip item.query_exec_title ≠ "" →
     _canonical_edge_key (pyStrip item.query_exec_title) ≠ "" →
     _canonical_edge_key (pyStrip item.query_exec_title) ∉ vE →
     pyOr (pyStrip item.query_kind) "unknown" = "kb_search" →
     _canonical_topic_key (root_topic_from_title (pyStrip item.query_exec_title)) ∈ vT →
     ∃ c ∈ build_explore_candidates ⟨[], [item], []⟩ ⟨[], [], []⟩ [] vE vT strat ioq maxC,
       c.query_exec_title = pyStrip item.query_exec_title ∧
       c.query_kind = "kb_search") := by
  constructor
  · intro c hc
    simp only [build_explore_candidates] at hc
    have hc2 := (List.perm_insertionSort candLe _).mem_iff.mp
      ((List.take_sublist _ _).mem hc)
    exact foldl_appendBacklinkStep_fresh vE vT strat bIn _
      (foldl_appendNavStep_fresh vE vT strat "command_section" _ _
        (foldl_appendNavStep_fresh vE vT strat "searchin_section" _ _
          (fun c hc => absurd hc (List.not_mem_nil c)))) c hc2
  · intro h1 h2 h3 h4 h5
    have hOrd : navOrdered ⟨[], [item], []⟩ "topic_first" = [item] := by
      unfold navOrdered
      rw [if_neg (by decide), if_neg (by decide)]
      rfl
    have hDedup : navDedup [] [item] = [item] := by
      unfold navDedup
      rw [if_neg h1, if_neg (List.not_mem_nil _)]
      rfl
    have hbnc : build_navigation_candidates ⟨[], [item], []⟩ "topic_first" ioq = [item] := by
      unfold build_navigation_candidates
      cases ioq
      · rw [if_neg (by decide), hOrd]
        exact hDedup
      · rw [if_pos rfl, hOrd]
        exact hDedup
    have hbnc0 : build_navigation_candidates ⟨[], [], []⟩ "topic_first" ioq = [] := by
      cases ioq <;> rfl
    have hstep : appendNavStep vE vT strat "searchin_section" ([], []) item =
        ([_canonical_edge_key (pyStrip item.query_exec_title)],
         [navCandidate strat "searchin_section" item]) := by
      unfold appendNavStep
      rw [if_neg h1, if_neg (by push_neg; exact ⟨h2, List.not_mem_nil _, h3⟩),
        if_neg ?hkind]
      · rfl
      case hkind =>
        intro hcontra
        rcases hcontra.1 with h | h <;> rw [h4] at h
        · exact absurd h (by decide)
        · exact absurd h (by decide)
    have hres : build_explore_candidates ⟨[], [item], []⟩ ⟨[], [], []⟩ [] vE vT strat ioq maxC
        = [navCandidate strat "searchin_section" item] := by
      simp only [build_explore_candidates]
      rw [hbnc, hbnc0, List.foldl_cons, hstep, List.foldl_nil, List.foldl_nil,
        List.foldl_nil]
      exact List.take_of_length_le (by simpa using le_max_left 1 maxC)
    refine ⟨navCandidate strat "searchin_section" item, ?_, rfl, h4⟩
    rw [hres]
    exact List.mem_singleton_self _

def c2Item : NavItem :=
  { title := "Vibe Coding searchin",
    query_kind := "kb_search",
    query_source := "searchin_section",
    query_cmd := "xlb >Vibe Coding/searchin:",
    query_exec_title := " >Vibe Coding/searchin: " }

/-- Witness for C2: a `kb_search` item whose topic key `"vibe coding"` is
already visited still yields a candidate, because only topic-level kinds are
filtered by the visited-topic set. -/
theorem explore_candidates_visited_filter_witness :
    ∃ c ∈ build_explore_candidates ⟨[], [c2Item], []⟩ ⟨[], [], []⟩ [] []
        ["vibe coding"] "searchin_command_backlink" false 10,
      c.query_exec_title = pyStrip c2Item.query_exec_title ∧
      c.query_kind = "kb_search" :=
  (explore_candidates_visited_filter ⟨[], [c2Item], []⟩ ⟨[], [], []⟩ [] []
    ["vibe coding"] "searchin_command_backlink" false 10 c2Item).2
    (by decide) (by decide) (by decide) (by decide) (by decide)

/-! ### C9: `graph_neighbors_from_edges` -/

/-- Source function `_canonical_exec_title_key`. -/
def _canonical_exec_title_key (value : String) : String :=
  let t0 := pyStrip value
  let t1 := if strEnds t0 ":" then pyRStrip (strDropRight t0 1) else t0
  if t1 = "" then ""
  else
    let t2 := if strStarts t1 "->" then ">" ++ pyLStrip (strDrop t1 2) else t1
    let t3 := if strStarts t2 ">>" then ">" ++ pyLStrip (strDrop t2 2) else t2
    if strStarts t3 ">" then
      if _canonical_topic_key (strDrop t3 1) ≠ "" then
        ">" ++ _canonical_topic_key (strDrop t3 1)
      else ">"
    else if strStarts t3 "??" then
      if _canonical_topic_key (strDrop t3 2) ≠ "" then
        "??" ++ _canonical_topic_key (strDrop t3 2)
      else "??"
    else _canonical_topic_key t3

/-- Source function `_topic_key_from_exec_title`. -/
def _topic_key_from_exec_title (exec_title : String) : String :=
  let t0 := pyStrip exec_title
  let t1 := if strEnds t0 ":" then pyRStrip (strDropRight t0 1) else t0
  if strStarts t1 ">" then _canonical_topic_key (strDrop t1 1) else ""

/-- Source function `_normalize_graph_target_title`. -/
def _normalize_graph_target_title (unesc : String → String) (raw : String) : String :=
  let t0 := pyStrip raw
  let t1 := if strEnds t0 ":" then pyRStrip (strDropRight t0 1) else t0
  let t2 := if strStarts t1 "->" then ">" ++ pyLStrip (strDrop t1 2) else t1
  let t3 := if strEnds t2 ":" then pyRStrip (strDropRight t2 1) else t2
  if _normalize_query_exec_title unesc t3 "" "" ≠ "" then
    _normalize_query_exec_title unesc t3 "" ""
  else if strStarts t3 ">" ∨ strStarts t3 "??" then t3
  else if t3 ≠ "" then ">" ++ t3 else ""

/-- Two-level lexicographic "sort key" comparison `(f x, g x)`. -/
def lex2 {α β γ : Type} [LinearOrder β] [LinearOrder γ]
    (f : α → β) (g : α → γ) (a b : α) : Prop :=
  f a < f b ∨ (f a = f b ∧ ¬ g b < g a)

instance {α β γ : Type} [LinearOrder β] [LinearOrder γ]
    (f : α → β) (g : α → γ) : DecidableRel (lex2 f g) := fun a b =>
  inferInstanceAs (Decidable (_ ∨ _))

instance {α β γ : Type} [LinearOrder β] [LinearOrder γ]
    (f : α → β) (g : α → γ) : IsTotal α (lex2 f g) := by
  constructor
  intro a b
  rcases lt_trichotomy (f a) (f b) with h | h | h
  · exact Or.inl (Or.inl h)
  · rcases le_total (g a) (g b) with hg | hg
    · exact Or.inl (Or.inr ⟨h, not_lt.mpr hg⟩)
    · exact Or.inr (Or.inr ⟨h.symm, not_lt.mpr hg⟩)
  · exact Or.inr (Or.inl h)

instance {α β γ : Type} [LinearOrder β] [LinearOrder γ]
    (f : α → β) (g : α → γ) : IsTrans α (lex2 f g) := by
  constructor
  intro a b c hab hbc
  rcases hab with h1 | ⟨h1, h1g⟩
  · rcases hbc with h2 | ⟨h2, _⟩
    · exact Or.inl (h1.trans h2)
    · exact Or.inl (h2 ▸ h1)
  · rcases hbc with h2 | ⟨h2, h2g⟩
    · exact Or.inl (h1 ▸ h2)
    · exact Or.inr ⟨h1.trans h2,
        not_lt.mpr (le_trans (not_lt.mp h1g) (not_lt.mp h2g))⟩

/-- The inbound sort key: `(topic.lower(), query_source.lower())`. -/
def inboundLe : Node → Node → Prop :=
  lex2 (fun e => asciiLower e.topic) (fun e => asciiLower e.query_source)

instance : DecidableRel inboundLe := fun a b =>
  inferInstanceAs (Decidable (lex2 (fun e : Node => asciiLower e.topic)
    (fun e : Node => asciiLower e.query_source) a b))

instance : IsTotal Node inboundLe :=
  inferInstanceAs (IsTotal Node (lex2 (fun e : Node => asciiLower e.topic)
    (fun e : Node => asciiLower e.query_source)))

instance : IsTrans Node inboundLe :=
  inferInstanceAs (IsTrans Node (lex2 (fun e : Node => asciiLower e.topic)
    (fun e : Node => asciiLower e.query_source)))

/-- The outbound sort key: `(query_kind.lower(), query_exec_title.lower())`. -/
def outboundLe : Node → Node → Prop :=
  lex2 (fun e => asciiLower e.query_kind) (fun e => asciiLower e.query_exec_title)

instance : DecidableRel outboundLe := fun a b =>
  inferInstanceAs (Decidable (lex2 (fun e : Node => asciiLower e.query_kind)
    (fun e : Node => asciiLower e.query_exec_title) a b))

instance : IsTotal Node outboundLe :=
  inferInstanceAs (IsTotal Node (lex2 (fun e : Node => asciiLower e.query_kind)
    (fun e : Node => asciiLower e.query_exec_title)))

instance : IsTrans Node outboundLe :=
  inferInstanceAs (IsTrans Node (lex2 (fun e : Node => asciiLower e.query_kind)
    (fun e : Node => asciiLower e.query_exec_title)))

/-- One aggregate of the `by_topic` dict: a referring topic with its inbound
count and up to three sample raw commands. -/
structure TopicAgg where
  topic : String
  count : Nat
  samples : List String
deriving Repr, DecidableEq

/-- The upstream-topics sort key: `(-count, topic.lower())`. -/
def aggLe : TopicAgg → TopicAgg → Prop :=
  lex2 (fun t => OrderDual.toDual t.count) (fun t => asciiLower t.topic)

instance : DecidableRel aggLe := fun a b =>
  inferInstanceAs (Decidable (lex2 (fun t : TopicAgg => OrderDual.toDual t.count)
    (fun t : TopicAgg => asciiLower t.topic) a b))

instance : IsTotal TopicAgg aggLe :=
  inferInstanceAs (IsTotal TopicAgg (lex2 (fun t : TopicAgg => OrderDual.toDual t.count)
    (fun t : TopicAgg => asciiLower t.topic)))

instance : IsTrans TopicAgg aggLe :=
  inferInstanceAs (IsTrans TopicAgg (lex2 (fun t : TopicAgg => OrderDual.toDual t.count)
    (fun t : TopicAgg => asciiLower t.topic)))

/-- The samples update for one inbound item: append the command when it is
non-empty, unseen, and fewer than three samples are recorded. -/
def sampleUpdate (samples : List String) (cmd : String) : List String :=
  if cmd ≠ "" ∧ cmd ∉ samples ∧ samples.length < 3 then samples ++ [cmd] else samples

/-- `by_topic.setdefault` plus count/samples update for one inbound item, on an
insertion-ordered association list. -/
def aggInsert (aggs : List TopicAgg) (topic cmd : String) : List TopicAgg :=
  match aggs with
  | [] => [⟨topic, 1, sampleUpdate [] cmd⟩]
  | a :: rest =>
      if a.topic = topic then
        { a with count := a.count + 1, samples := sampleUpdate a.samples cmd } :: rest
      else a :: aggInsert rest topic cmd

/-- The inbound aggregation loop of `graph_neighbors_from_edges`. -/
def aggFold (inbound : List Node) : List TopicAgg :=
  inbound.foldl (fun aggs item =>
    aggInsert aggs (pyOr (pyStrip item.topic) "unknown-topic") (pyStrip item.query_cmd)) []

/-- The upstream follow-up inputs: `xlb >{topic}/` per non-empty topic. -/
def upstreamFollowups (ts : List TopicAgg) : List String :=
  ts.filterMap (fun t =>
    if pyStrip t.topic ≠ "" then some ("xlb >" ++ pyStrip t.topic ++ "/") else none)

/-- The outbound follow-up loop: derive an input per edge, skipping empty exec
titles and inputs already seen modulo lowercasing. -/
def outFollowGo (seen : List String) : List Node → List String
  | [] => []
  | item :: rest =>
      if pyStrip item.query_exec_title = "" then outFollowGo seen rest
      else if asciiLower (_to_input_from_exec_title (pyStrip item.query_exec_title)) ∈ seen
      then outFollowGo seen rest
      else _to_input_from_exec_title (pyStrip item.query_exec_title) ::
        outFollowGo
          (asciiLower (_to_input_from_exec_title (pyStrip item.query_exec_title)) :: seen)
          rest

/-- The payload returned by `graph_neighbors_from_edges`. -/
structure GraphNeighbors where
  target_exec_title : String
  canonical_target : String
  inbound_edge_count : Nat
  outbound_edge_count : Nat
  upstream_topic_count : Nat
  upstream_topics : List TopicAgg
  inbound_edges : List Node
  outbound_edges : List Node
  followup_upstream_topics : List String
  followup_outbound_queries : List String
deriving Repr, DecidableEq

/-- Source function `graph_neighbors_from_edges`. -/
def graph_neighbors_from_edges (unesc : String → String) (edges : List Node)
    (target_title : String) (limit : Nat) : GraphNeighbors :=
  let normalized_target := _normalize_graph_target_title unesc target_title
  let canonical_target := _canonical_exec_title_key normalized_target
  let topic_key := _topic_key_from_exec_title normalized_target
  let inbound := (List.insertionSort inboundLe
    (edges.filter (fun e => _canonical_exec_title_key e.query_exec_title == canonical_target))).take
    (max 1 limit)
  let outbound := (List.insertionSort outboundLe
    (edges.filter (fun e => topic_key != "" && (_canonical_topic_key e.topic == topic_key)))).take
    (max 1 limit)
  let upstream := List.insertionSort aggLe (aggFold inbound)
  { target_exec_title := normalized_target,
    canonical_target := canonical_target,
    inbound_edge_count := inbound.length,
    outbound_edge_count := outbound.length,
    upstream_topic_count := upstream.length,
    upstream_topics := upstream,
    inbound_edges := inbound,
    outbound_edges := outbound,
    followup_upstream_topics := (upstreamFollowups upstream).take 20,
    followup_outbound_queries := (outFollowGo [] outbound).take 20 }

theorem sampleUpdate_length (samples : List String) (cmd : String)
    (h : samples.length ≤ 3) : (sampleUpdate samples cmd).length ≤ 3 := by
  unfold sampleUpdate
  split
  · rename_i hc
    rw [List.length_append]
    simp only [List.length_singleton]
    omega
  · exact h

theorem aggInsert_samples (topic cmd : String) :
    ∀ aggs : List TopicAgg, (∀ t ∈ aggs, t.samples.length ≤ 3) →
      ∀ t ∈ aggInsert aggs topic cmd, t.samples.length ≤ 3 := by
  intro aggs
  induction aggs with
  | nil =>
      intro _ t ht
      rcases List.mem_singleton.mp ht with rfl
      exact sampleUpdate_length [] cmd (by simp)
  | cons a rest ih =>
      intro h t ht
      unfold aggInsert at ht
      revert ht
      split
      · intro ht
        rcases List.mem_cons.mp ht with rfl | hrest
        · exact sampleUpdate_length a.samples cmd (h a (List.mem_cons_self a rest))
        · exact h t (List.mem_cons_of_mem a hrest)
      · intro ht
        rcases List.mem_cons.mp ht with rfl | hrest
        · exact h t (List.mem_cons_self t rest)
        · exact ih (fun u hu => h u (List.mem_cons_of_mem a hu)) t hrest

theorem aggInsert_count_sum (topic cmd : String) :
    ∀ aggs : List TopicAgg,
      ((aggInsert aggs topic cmd).map TopicAgg.count).sum
        = (aggs.map TopicAgg.count).sum + 1 := by
  intro aggs
  induction aggs with
  | nil => simp [aggInsert]
  | cons a rest ih =>
      unfold aggInsert
      split
      · simp only [List.map_cons, List.sum_cons]
        omega
      · simp only [List.map_cons, List.sum_cons, ih]
        omega

theorem foldl_aggInsert_samples (l : List Node) :
    ∀ acc : List TopicAgg, (∀ t ∈ acc, t.samples.length ≤ 3) →
      ∀ t ∈ l.foldl (fun aggs item =>
        aggInsert aggs (pyOr (pyStrip item.topic) "unknown-topic")
          (pyStrip item.query_cmd)) acc, t.samples.length ≤ 3 := by
  induction l with
  | nil => intro acc h; exact h
  | cons x xs ih =>
      intro acc h
      exact ih _ (aggInsert_samples _ _ acc h)

theorem foldl_aggInsert_sum (l : List Node) :
    ∀ acc : List TopicAgg,
      ((l.foldl (fun aggs item =>
        aggInsert aggs (pyOr (pyStrip item.topic) "unknown-topic")
          (pyStrip item.query_cmd)) acc).map TopicAgg.count).sum
        = (acc.map TopicAgg.count).sum + l.length := by
  induction l with
  | nil => intro acc; simp
  | cons x xs ih =>
      intro acc
      rw [List.foldl_cons, ih, aggInsert_count_sum]
      simp only [List.length_cons]
      omega

theorem outFollowGo_spec (l : List Node) :
    ∀ seen : List String,
      (outFollowGo seen l).Pairwise (fun a b => asciiLower a ≠ asciiLower b) ∧
      ∀ x ∈ outFollowGo seen l, asciiLower x ∉ seen := by
  induction l with
  | nil => intro seen; exact ⟨List.Pairwise.nil, by intro x hx; cases hx⟩
  | cons item rest ih =>
      intro seen
      unfold outFollowGo
      split
      · exact ih seen
      · split
        · exact ih seen
        · rename_i hseen
          constructor
          · refine List.Pairwise.cons ?_ (ih _).1
            intro y hy hcontra
            exact (ih _).2 y hy (hcontra ▸ List.mem_cons_self _ _)
          · intro x hx
            rcases List.mem_cons.mp hx with rfl | hx2
            · exact hseen
            · intro hmem
              exact (ih _).2 x hx2 (List.mem_cons_of_mem _ hmem)

theorem aggPipeline_sum (inb : List Node) :
    ((List.insertionSort aggLe (aggFold inb)).map TopicAgg.count).sum = inb.length := by
  rw [((List.perm_insertionSort aggLe (aggFold inb)).map TopicAgg.count).sum_eq]
  have h := foldl_aggInsert_sum inb []
  simp only [List.map_nil, List.sum_nil, Nat.zero_add] at h
  exact h

/-- **C9** (amended). `graph_neighbors_from_edges` returns at most
`max(1, limit)` inbound and at most `max(1, limit)` outbound edges (one edge
can be returned even when `limit = 0`); the inbound edges are aggregated per
referring topic with a count (the counts sum to the number of capped inbound
edges) and at most 3 sample commands, the aggregates sorted by descending
count then lowercased topic; the outbound edges are sorted by kind then
exec-title, and the outbound follow-up inputs are pairwise distinct modulo
lowercasing and capped at 20. -/
theorem graph_neighbors_shape (unesc : String → String) (edges : List Node)
    (target_title : String) (limit : Nat) :
    (graph_neighbors_from_edges unesc edges target_title limit).inbound_edges.length
      ≤ max 1 limit ∧
    (graph_neighbors_from_edges unesc edges target_title limit).outbound_edges.length
      ≤ max 1 limit ∧
    List.Sorted aggLe
      (graph_neighbors_from_edges unesc edges target_title limit).upstream_topics ∧
    (∀ t ∈ (graph_neighbors_from_edges unesc edges target_title limit).upstream_topics,
      t.samples.length ≤ 3) ∧
    ((graph_neighbors_from_edges unesc edges target_title limit).upstream_topics.map
      TopicAgg.count).sum
      = (graph_neighbors_from_edges unesc edges target_title limit).inbound_edges.length ∧
    List.Sorted outboundLe
      (graph_neighbors_from_edges unesc edges target_title limit).outbound_edges ∧
    List.Pairwise (fun a b => asciiLower a ≠ asciiLower b)
      (graph_neighbors_from_edges unesc edges target_title limit).followup_outbound_queries ∧
    (graph_neighbors_from_edges unesc edges target_title limit).followup_outbound_queries.length
      ≤ 20 := by
  simp only [graph_neighbors_from_edges]
  refine ⟨List.length_take_le _ _, List.length_take_le _ _,
    List.sorted_insertionSort aggLe _, ?_, ?_, ?_, ?_, List.length_take_le _ _⟩
  · intro t ht
    have ht2 := (List.perm_insertionSort aggLe _).mem_iff.mp ht
    exact foldl_aggInsert_samples _ [] (fun u hu => absurd hu (List.not_mem_nil u)) t ht2
  · exact aggPipeline_sum _
  · exact (List.sorted_insertionSort outboundLe _).sublist (List.take_sublist _ _)
  · exact ((outFollowGo_spec _ []).1).sublist (List.take_sublist _ _)

def c9Edge : Node :=
  { node_id := "e1", node_type := "query", topic := "T", sect := "searchin:",
    title := "t", query_cmd := "xlb >T/", query_exec_title := ">T/",
    query_kind := "topic_nav", query_source := "searchin_section" }

/-- Counterexample to the unamended C9: with `limit = 0` the caps are
`max(1, 0) = 1`, so one inbound and one outbound edge are returned — more than
the caller-supplied limit of 0. -/
theorem graph_neighbors_limit_counterexample :
    (graph_neighbors_from_edges (fun s => s) [c9Edge] ">T/" 0).inbound_edges.length = 1 ∧
    (graph_neighbors_from_edges (fun s => s) [c9Edge] ">T/" 0).outbound_edges.length = 1 ∧
    ¬ (graph_neighbors_from_edges (fun s => s) [c9Edge] ">T/" 0).inbound_edges.length ≤ 0 := by
  decide

/-! ### C5: `iterative_search` gain loop -/

/-- One round record of `iterative_search`. -/
structure ItRound where
  iteration : Nat
  query : String
  hits : Nat
  new_hits : Nat
  gain : ℚ
  expanded_queries : List String
  top_titles : List String
deriving Repr, DecidableEq

/-- The loop state of `iterative_search`. -/
structure ItState where
  frontier : List String
  seen_node_ids : List String
  seen_query_cmds : List String
  rounds : List ItRound
  low_gain_streak : Nat
  stop_reason : String
deriving Repr, DecidableEq

/-- `new_hits`: the hits whose node id was not previously seen in the run. -/
def newHits (seen : List String) (hits : List Node) : List Node :=
  hits.filter (fun h => decide (h.node_id ∉ seen))

/-- Record the non-empty node ids of the new hits in the seen set. -/
def addSeen (seen : List String) (new : List Node) : List String :=
  new.foldl (fun s h => if h.node_id ≠ "" ∧ h.node_id ∉ s then s ++ [h.node_id] else s) seen

/-- The `follow_query_nodes` expansion: harvest stripped `query_cmd` values of
query-type hits that are non-empty and not yet seen; returns the updated seen
command set and the expanded queries appended to the frontier. -/
def followExpand (seen_cmds : List String) (hits : List Node) :
    List String × List String :=
  hits.foldl (fun acc h =>
    if h.node_type ≠ "query" then acc
    else if pyStrip h.query_cmd = "" ∨ pyStrip h.query_cmd ∈ acc.1 then acc
    else (acc.1 ++ [pyStrip h.query_cmd], acc.2 ++ [pyStrip h.query_cmd]))
    (seen_cmds, [])

/-- A round's gain: new unique hits over the requested per-round limit
(`0.0` when the limit is not positive). -/
def gainOf (limit numNew : Nat) : ℚ :=
  if 0 < limit then (numNew : ℚ) / (limit : ℚ) else 0

/-- The `for _ in range(max_iter)` loop of `iterative_search`, with the
per-round index-retrieval call abstracted as `searchFn`. -/
def iterLoop (searchFn : String → Nat → List Node) (limit : Nat)
    (gain_threshold : ℚ) (low_gain_rounds : Nat) (follow_query_nodes : Bool) :
    Nat → ItState → ItState
  | 0, st => st
  | k + 1, st =>
      match st.frontier with
      | [] => { st with stop_reason := "no_frontier" }
      | current_query :: rest =>
          let hits := searchFn current_query limit
          let new := newHits st.seen_node_ids hits
          let fe := if follow_query_nodes then followExpand st.seen_query_cmds hits
                    else (st.seen_query_cmds, [])
          let gain : ℚ := gainOf limit new.length
          let st' : ItState :=
            { frontier := rest ++ fe.2,
              seen_node_ids := addSeen st.seen_node_ids new,
              seen_query_cmds := fe.1,
              rounds := st.rounds ++
                [{ iteration := st.rounds.length + 1, query := current_query,
                   hits := hits.length, new_hits := new.length, gain := gain,
                   expanded_queries := fe.2,
                   top_titles := (hits.take 3).map Node.title }],
              low_gain_streak := st.low_gain_streak,
              stop_reason := st.stop_reason }
          if hits = [] then { st' with stop_reason := "no_hits" }
          else
            let streak := if gain < gain_threshold then st.low_gain_streak + 1 else 0
            if low_gain_rounds ≤ streak then
              { st' with low_gain_streak := streak, stop_reason := "low_gain" }
            else
              iterLoop searchFn limit gain_threshold low_gain_rounds
                follow_query_nodes k { st' with low_gain_streak := streak }

/-- Source function `iterative_search` (result = final loop state; the result
dict's fields `iterations`, `unique_hits`, `frontier_remaining` are the lengths
of the corresponding state components). -/
def iterative_search (searchFn : String → Nat → List Node) (query : String)
    (limit max_iter : Nat) (gain_threshold : ℚ) (low_gain_rounds : Nat)
    (follow_query_nodes : Bool) : ItState :=
  if pyStrip query = "" then
    { frontier := [], seen_node_ids := [], seen_query_cmds := [], rounds := [],
      low_gain_streak := 0, stop_reason := "empty_query" }
  else
    iterLoop searchFn limit gain_threshold low_gain_rounds follow_query_nodes
      max_iter
      { frontier := [pyStrip query], seen_node_ids := [], seen_query_cmds := [],
        rounds := [], low_gain_streak := 0, stop_reason := "max_iter" }

/-- A round that triggers the low-gain streak under `limit = 2`,
`gain_threshold = 1/5`: zero new unique hits, at least one hit. -/
def badRound (r : ItRound) : Prop := r.new_hits = 0 ∧ 0 < r.hits

/-- No two adjacent rounds are both low-gain-with-hits. -/
def nb (a b : ItRound) : Prop := ¬ (badRound a ∧ badRound b)

/-- The streak invariant under `low_gain_rounds = 2`: a zero streak means the
last round (if any) was not bad; a streak of one means the last round was bad. -/
def streakInv (st : ItState) : Prop :=
  (st.low_gain_streak = 0 ∧ ∀ r, st.rounds.getLast? = some r → ¬ badRound r) ∨
  (st.low_gain_streak = 1 ∧ ∃ r, st.rounds.getLast? = some r ∧ badRound r)

theorem gain_lt_iff (n : Nat) : gainOf 2 n < 1/5 ↔ n = 0 := by
  unfold gainOf
  rw [if_pos (by norm_num : (0:ℕ) < 2)]
  constructor
  · intro h
    by_contra hne
    have h1 : 1 ≤ n := Nat.one_le_iff_ne_zero.mpr hne
    have h2 : (1 : ℚ) ≤ (n : ℚ) := by exact_mod_cast h1
    rw [show ((2:ℕ):ℚ) = 2 from by norm_num,
      div_lt_iff (by norm_num : (0:ℚ) < 2)] at h
    nlinarith
  · intro h
    subst h
    norm_num

theorem decomp_helper {L ys : List ItRound} {rl r2 : ItRound}
    (h : L = ys ++ [rl]) (hb1 : badRound rl) (hb2 : badRound r2)
    (hchain : List.Chain' nb L) :
    ∃ l a b, L ++ [r2] = l ++ [a, b] ∧ badRound a ∧ badRound b ∧
      (l ++ [a]).Chain' nb := by
  subst h
  exact ⟨ys, rl, r2, by simp, hb1, hb2, hchain⟩

theorem iterLoop_chain (f : String → Nat → List Node) (fqn : Bool) :
    ∀ (k : Nat) (st : ItState),
      st.rounds.Chain' nb → streakInv st → st.stop_reason ≠ "low_gain" →
      ((iterLoop f 2 (1/5) 2 fqn k st).stop_reason = "low_gain" →
        ∃ l r1 r2, (iterLoop f 2 (1/5) 2 fqn k st).rounds = l ++ [r1, r2] ∧
          badRound r1 ∧ badRound r2 ∧ (l ++ [r1]).Chain' nb) ∧
      ((iterLoop f 2 (1/5) 2 fqn k st).stop_reason ≠ "low_gain" →
        (iterLoop f 2 (1/5) 2 fqn k st).rounds.Chain' nb) := by
  intro k
  induction k with
  | zero =>
      intro st hC hS hR
      exact ⟨fun h => absurd h hR, fun _ => hC⟩
  | succ k ih =>
      intro st hC hS hR
      obtain ⟨fr, seen, cmds, rounds, stk, reason⟩ := st
      cases fr with
      | nil =>
          refine ⟨?_, ?_⟩
          · intro h
            exact absurd h (by simp [iterLoop])
          · intro _
            exact hC
      | cons q rest =>
          simp only [iterLoop]
          generalize hH : f q 2 = hits
          generalize hNew : newHits seen hits = nw
          split
          · rename_i hhits
            refine ⟨?_, ?_⟩
            · intro h
              exact absurd h (by simp)
            · intro _
              refine List.chain'_append.mpr ⟨hC, List.chain'_singleton _, ?_⟩
              intro x hx y hy
              simp only [List.head?_cons, Option.mem_def, Option.some.injEq] at hy
              subst hy
              intro hcontra
              have hb : (0:ℕ) < hits.length := hcontra.2.2
              rw [hhits] at hb
              simp at hb
          · rename_i hhits
            split
            · rename_i hgain
              split
              · rename_i hstreak
                rcases hS with ⟨h0, _⟩ | ⟨_, rl, hrl, hbadrl⟩
                · have hstk0 : stk = 0 := h0
                  omega
                refine ⟨?_, ?_⟩
                · intro _
                  obtain ⟨ys, hys⟩ := List.getLast?_eq_some_iff.mp hrl
                  exact decomp_helper hys hbadrl
                    ⟨(gain_lt_iff nw.length).mp hgain, List.length_pos.mpr hhits⟩ hC
                · intro hne
                  exact absurd rfl hne
              · rename_i hstreak
                refine ih _ ?_ ?_ ?_
                · refine List.chain'_append.mpr ⟨hC, List.chain'_singleton _, ?_⟩
                  intro x hx y hy
                  simp only [List.head?_cons, Option.mem_def, Option.some.injEq] at hy
                  subst hy
                  intro hcontra
                  rcases hS with ⟨_, hlast⟩ | ⟨h1, _⟩
                  · exact hlast x hx hcontra.1
                  · have hstk1 : stk = 1 := h1
                    omega
                · right
                  have hstk0 : stk = 0 := by
                    rcases hS with ⟨h0, _⟩ | ⟨h1, _⟩
                    · exact h0
                    · have : stk = 1 := h1
                      omega
                  refine ⟨by simp [hstk0], ?_⟩
                  refine ⟨_, List.getLast?_concat _, ?_⟩
                  exact ⟨(gain_lt_iff nw.length).mp hgain, List.length_pos.mpr hhits⟩
                · exact hR
            · rename_i hgain
              split
              · rename_i hstreak
                omega
              · refine ih _ ?_ ?_ ?_
                · refine List.chain'_append.mpr ⟨hC, List.chain'_singleton _, ?_⟩
                  intro x hx y hy
                  simp only [List.head?_cons, Option.mem_def, Option.some.injEq] at hy
                  subst hy
                  intro hcontra
                  exact hgain ((gain_lt_iff nw.length).mpr hcontra.2.1)
                · left
                  refine ⟨rfl, ?_⟩
                  intro r hr
                  rw [List.getLast?_concat] at hr
                  rcases Option.some_inj.mp hr with rfl
                  intro hbad
                  exact hgain ((gain_lt_iff nw.length).mpr hbad.1)
                · exact hR

/-- **C5** (amended). Under `limit = 2`, `gain_threshold = 1/5`,
`low_gain_rounds = 2`: whenever the recorded rounds of an `iterative_search`
run contain two consecutive rounds that each contributed 0 new unique node ids
AND each had at least one hit, the run stopped with `stop_reason = "low_gain"`
immediately after the second such round (nothing follows the pair). Without
the at-least-one-hit condition this fails: a 0-hit round triggers the
`no_hits` stop before the streak update. -/
theorem iterative_search_low_gain (f : String → Nat → List Node) (query : String)
    (mi : Nat) (fqn : Bool) (pre post : List ItRound) (r1 r2 : ItRound)
    (hdecomp : (iterative_search f query 2 mi (1/5) 2 fqn).rounds
      = pre ++ [r1, r2] ++ post)
    (hb1 : r1.new_hits = 0) (hb1h : 0 < r1.hits)
    (hb2 : r2.new_hits = 0) (hb2h : 0 < r2.hits) :
    (iterative_search f query 2 mi (1/5) 2 fqn).stop_reason = "low_gain" ∧
    post = [] := by
  unfold iterative_search at hdecomp ⊢
  by_cases hq : pyStrip query = ""
  · rw [if_pos hq] at hdecomp
    simp at hdecomp
  · rw [if_neg hq] at hdecomp ⊢
    have H := iterLoop_chain f fqn mi
      { frontier := [pyStrip query], seen_node_ids := [], seen_query_cmds := [],
        rounds := [], low_gain_streak := 0, stop_reason := "max_iter" }
      (by simp) (Or.inl ⟨rfl, by intro r hr; simp at hr⟩) (by simp)
    by_cases hlg : (iterLoop f 2 (1/5) 2 fqn mi
        { frontier := [pyStrip query], seen_node_ids := [], seen_query_cmds := [],
          rounds := [], low_gain_streak := 0,
          stop_reason := "max_iter" }).stop_reason = "low_gain"
    · obtain ⟨l, a, b, heq, hba, hbb, hch⟩ := H.1 hlg
      refine ⟨hlg, ?_⟩
      rcases List.eq_nil_or_concat post with rfl | ⟨ps, plast, rfl⟩
      · rfl
      · exfalso
        have hEq : pre ++ [r1, r2] ++ ps.concat plast = l ++ [a, b] :=
          hdecomp.symm.trans heq
        have hEq2 : (pre ++ [r1, r2] ++ ps) ++ [plast] = (l ++ [a]) ++ [b] := by
          calc (pre ++ [r1, r2] ++ ps) ++ [plast]
              = pre ++ [r1, r2] ++ (ps ++ [plast]) := by
                simp [List.append_assoc]
            _ = pre ++ [r1, r2] ++ ps.concat plast := by
                rw [List.concat_eq_append]
            _ = l ++ [a, b] := hEq
            _ = (l ++ [a]) ++ [b] := by simp
        obtain ⟨h4, _⟩ := List.append_inj' hEq2 rfl
        have hnb := List.chain'_pair.mp ( List.Chain'.infix hch ⟨pre, ps, h4⟩)
        exact hnb ⟨⟨hb1, hb1h⟩, ⟨hb2, hb2h⟩⟩
    · exfalso
      exact (List.chain'_pair.mp ( List.Chain'.infix (hdecomp ▸ H.2 hlg) ⟨pre, post, rfl⟩))
        ⟨⟨hb1, hb1h⟩, ⟨hb2, hb2h⟩⟩

def c5N1 : Node := { node_id := "i1", node_type := "query", query_cmd := "b", title := "T1" }

def c5N2 : Node := { node_id := "i2", node_type := "query", query_cmd := "c", title := "T2" }

def c5SearchFn (q : String) (_ : Nat) : List Node :=
  if q = "a" then [c5N1, c5N2] else if q = "b" then [c5N1] else []

/-- Counterexample to the unamended C5: rounds 2 and 3 of this run each
contribute 0 new unique node ids, yet the run stops with `"no_hits"` — round 3
returned no hits at all, and the `no_hits` break fires before the low-gain
streak is updated, so `"low_gain"` is never reached. -/
theorem iterative_search_low_gain_counterexample :
    (iterative_search c5SearchFn "a" 2 5 (1/5) 2 true).stop_reason = "no_hits" ∧
    ((iterative_search c5SearchFn "a" 2 5 (1/5) 2 true).rounds.map
      ItRound.new_hits) = [2, 0, 0] ∧
    ((iterative_search c5SearchFn "a" 2 5 (1/5) 2 true).rounds.map
      ItRound.hits) = [2, 1, 0] :=
  ⟨by with_unfolding_all rfl, by with_unfolding_all rfl, by with_unfolding_all rfl⟩

def c5M1 : Node := { node_id := "j1", node_type := "query", query_cmd := "b", title := "U1" }

def c5M2 : Node := { node_id := "j2", node_type := "query", query_cmd := "c", title := "U2" }

def c5SearchFnW (q : String) (_ : Nat) : List Node :=
  if q = "a" then [c5M1, c5M2] else if q = "b" then [c5M1] else [c5M2]

def c5W1 : ItRound :=
  { iteration := 1, query := "a", hits := 2, new_hits := 2, gain := 1,
    expanded_queries := ["b", "c"], top_titles := ["U1", "U2"] }

def c5W2 : ItRound :=
  { iteration := 2, query := "b", hits := 1, new_hits := 0, gain := 0,
    expanded_queries := [], top_titles := ["U1"] }

def c5W3 : ItRound :=
  { iteration := 3, query := "c", hits := 1, new_hits := 0, gain := 0,
    expanded_queries := [], top_titles := ["U2"] }

/-- Witness for C5: a run whose rounds 2 and 3 each contribute 0 new ids while
returning one hit each stops with `"low_gain"` right after round 3. -/
theorem iterative_search_low_gain_witness :
    (iterative_search c5SearchFnW "a" 2 5 (1/5) 2 true).stop_reason = "low_gain" ∧
    ([] : List ItRound) = [] :=
  iterative_search_low_gain c5SearchFnW "a" 5 true [c5W1] [] c5W2 c5W3
    (by with_unfolding_all rfl) rfl (by decide) rfl (by decide)

/-! ### C1: `explore_loop` budgets and call accounting -/

/-- `str.replace(pat, rep, 1)`: replace the first occurrence of the pattern. -/
def replaceFirstChars (pat rep : List Char) : List Char → List Char
  | [] => []
  | c :: cs =>
      if pat.isPrefixOf (c :: cs) then rep ++ (c :: cs).drop pat.length
      else c :: replaceFirstChars pat rep cs

/-- `str.replace(pat, rep, 1)` on strings. -/
def pyReplaceFirst (s pat rep : String) : String :=
  (replaceFirstChars pat.toList rep.toList s.toList).asString

/-- Add a key to a visited set (modelled as a duplicate-free list). -/
def addKey (l : List String) (k : String) : List String :=
  if k ∈ l then l else l ++ [k]

/-- What `explore_loop` consumes from one collaborator (`run_impl`) call: the
return code, the parsed title, and the navigation payload that
`_navigation_from_run_result` extracts from the parsed output. -/
structure RunResult where
  returncode : Int := 1
  title : String := ""
  nav : NavPayload := {}
deriving Repr, DecidableEq

/-- One frontier entry of `explore_loop`. -/
structure QueueItem where
  input : String
  depth : Nat
  via : String
deriving Repr, DecidableEq

/-- One trace entry of `explore_loop`. -/
structure TraceHop where
  input : String := ""
  depth : Nat := 0
  via : String := ""
  status : String := ""
  resolved_title : String := ""
  root_topic : String := ""
  returncode : Int := 1
  candidate_count : Nat := 0
deriving Repr, DecidableEq

/-- The `explore_loop` state, instrumented with the inputs of every
collaborator call (`mainCalls` for billed step calls, `auxCalls` for the
searchin/command section fetches, `graphCalls` for backlink graph lookups) and
a loop-iteration counter `tick` driving the wall clock. -/
structure ExpState where
  queue : List QueueItem
  visited_exec : List String
  visited_topics : List String
  trace : List TraceHop
  steps_executed : Nat
  aux_fetch_count : Nat
  stop_reason : String
  mainCalls : List String
  auxCalls : List String
  graphCalls : List String
  tick : Nat
deriving Repr, DecidableEq

/-- The resolved root topic of one executed item (`root_topic` in the loop). -/
def expRoot (runFn : String → RunResult) (x : String) : String :=
  root_topic_from_title (pyOr (pyStrip (runFn x).title) (backlinkTitle x))

/-- The visited-exec set after one executed item. -/
def expVE (runFn : String → RunResult) (ve : List String) (x : String) : List String :=
  let input_key := _canonical_edge_key (backlinkTitle x)
  let resolved_key := _canonical_edge_key (pyOr (pyStrip (runFn x).title) (backlinkTitle x))
  let ve1 := if input_key ≠ "" then addKey ve input_key else ve
  if resolved_key ≠ "" then addKey ve1 resolved_key else ve1

/-- The visited-topic set after one executed item. -/
def expVT (runFn : String → RunResult) (vt : List String) (x : String) : List String :=
  if _canonical_topic_key (expRoot runFn x) ≠ "" then
    addKey vt (_canonical_topic_key (expRoot runFn x))
  else vt

/-- The backlink inputs fetched while expanding one item. -/
def expBacklinks (runFn : String → RunResult) (graphFn : String → Nat → List String)
    (ib : Bool) (bl : Nat) (x : String) : List String :=
  if ib = true then
    ((graphFn (pyReplaceFirst (topic_section_inputs (expRoot runFn x)).backlink "xlb " "")
      (max 1 bl)).map pyStrip).filter (fun s => s != "")
  else []

/-- The candidates built while expanding one item. -/
def expCandidates (runFn : String → RunResult) (graphFn : String → Nat → List String)
    (strat : String) (ib ioq : Bool) (mb bl : Nat) (ve vt : List String)
    (x : String) : List Candidate :=
  build_explore_candidates (runFn (topic_section_inputs (expRoot runFn x)).searchin).nav
    (runFn (topic_section_inputs (expRoot runFn x)).command).nav
    (expBacklinks runFn graphFn ib bl x)
    (expVE runFn ve x) (expVT runFn vt x) strat ioq (max 1 mb)

/-- The trace hop recorded for one expanded item. -/
def expHop (runFn : String → RunResult) (graphFn : String → Nat → List String)
    (strat : String) (ib ioq : Bool) (mb bl : Nat) (ve vt : List String)
    (item : QueueItem) : TraceHop :=
  { input := pyStrip item.input, depth := item.depth, via := item.via,
    resolved_title := pyOr (pyStrip (runFn (pyStrip item.input)).title)
      (backlinkTitle (pyStrip item.input)),
    root_topic := expRoot runFn (pyStrip item.input),
    returncode := (runFn (pyStrip item.input)).returncode,
    status := "expanded",
    candidate_count := (expCandidates runFn graphFn strat ib ioq mb bl ve vt
      (pyStrip item.input)).length }

/-- The per-item state update common to all executed-item branches: pop, mark
visited, bill the collaborator call in `steps_executed`. -/
def expStep (runFn : String → RunResult) (st : ExpState) (item : QueueItem)
    (rest : List QueueItem) : ExpState :=
  { st with
    queue := rest,
    visited_exec := expVE runFn st.visited_exec (pyStrip item.input),
    visited_topics := expVT runFn st.visited_topics (pyStrip item.input),
    steps_executed := st.steps_executed + 1,
    mainCalls := st.mainCalls ++ [pyStrip item.input],
    tick := st.tick + 1 }

/-- The trace hop recorded for an executed item that is not expanded. -/
def expFailHop (runFn : String → RunResult) (item : QueueItem)
    (status : String) : TraceHop :=
  { input := pyStrip item.input, depth := item.depth, via := item.via,
    resolved_title := pyOr (pyStrip (runFn (pyStrip item.input)).title)
      (backlinkTitle (pyStrip item.input)),
    root_topic := expRoot runFn (pyStrip item.input),
    returncode := (runFn (pyStrip item.input)).returncode,
    status := status }

/-- The body of one `while` iteration of `explore_loop` after the budget
checks: pop an item, skip it if empty or already visited, otherwise run the
collaborator (billed in `steps_executed`), and on success within the depth
budget fetch the searchin and command sections (billed in `aux_fetch_count`),
optionally the backlink graph neighbours (billed in neither counter), build
candidates and enqueue them. -/
def processItem (runFn : String → RunResult) (graphFn : String → Nat → List String)
    (max_depth : Nat) (strat : String)
    (include_backlinks include_other_queries : Bool) (mb bl : Nat)
    (st : ExpState) (item : QueueItem) (rest : List QueueItem) : ExpState :=
  if pyStrip item.input = "" then { st with queue := rest, tick := st.tick + 1 }
  else if _canonical_edge_key (backlinkTitle (pyStrip item.input)) ≠ "" ∧
      _canonical_edge_key (backlinkTitle (pyStrip item.input)) ∈ st.visited_exec then
    { st with
      queue := rest,
      tick := st.tick + 1,
      trace := st.trace ++
        [{ input := pyStrip item.input, depth := item.depth, via := item.via,
           status := "skipped_visited_exec",
           resolved_title := backlinkTitle (pyStrip item.input) }] }
  else if (runFn (pyStrip item.input)).returncode ≠ 0 then
    { expStep runFn st item rest with
      trace := st.trace ++ [expFailHop runFn item "execute_failed"] }
  else if max_depth ≤ item.depth then
    { expStep runFn st item rest with
      trace := st.trace ++ [expFailHop runFn item "depth_budget_reached"] }
  else if expRoot runFn (pyStrip item.input) = "" then
    { expStep runFn st item rest with
      trace := st.trace ++ [expFailHop runFn item "no_topic_root"] }
  else
    { expStep runFn st item rest with
      queue := rest ++ (expCandidates runFn graphFn strat include_backlinks
          include_other_queries mb bl st.visited_exec st.visited_topics
          (pyStrip item.input)).map
          (fun c => ⟨c.input, item.depth + 1, c.source⟩),
      aux_fetch_count := st.aux_fetch_count + 2,
      auxCalls := st.auxCalls ++
        [(topic_section_inputs (expRoot runFn (pyStrip item.input))).searchin,
         (topic_section_inputs (expRoot runFn (pyStrip item.input))).command],
      graphCalls := st.graphCalls ++
        (if include_backlinks = true then
          [pyReplaceFirst (topic_section_inputs
            (expRoot runFn (pyStrip item.input))).backlink "xlb " ""]
         else []),
      trace := st.trace ++
        [expHop runFn graphFn strat include_backlinks include_other_queries
          mb bl st.visited_exec st.visited_topics item] }

/-- The `while queue` loop of `explore_loop`: before each pop, stop on the time
budget (`clock` gives the elapsed seconds at each iteration) then on the step
budget. -/
instance : Inhabited QueueItem := ⟨⟨"", 0, ""⟩⟩

def exploreLoop (runFn : String → RunResult) (graphFn : String → Nat → List String)
    (max_steps max_depth : Nat) (max_seconds : ℚ) (clock : Nat → ℚ)
    (strat : String) (include_backlinks include_other_queries : Bool)
    (mb bl : Nat) : Nat → ExpState → ExpState
  | 0, st => st
  | fuel + 1, st =>
      if st.queue = [] then st
      else if 0 < max_seconds ∧ max_seconds ≤ clock st.tick then
        { st with stop_reason := "time_budget_exhausted" }
      else if max_steps ≤ st.steps_executed then
        { st with stop_reason := "step_budget_exhausted" }
      else
        exploreLoop runFn graphFn max_steps max_depth max_seconds clock strat
          include_backlinks include_other_queries mb bl fuel
          (processItem runFn graphFn max_depth strat include_backlinks
            include_other_queries mb bl st st.queue.headI st.queue.tail)

/-- Source function `explore_loop` (`none` models the `invalid_seed` payload);
`fuel` bounds the number of `while` iterations. -/
def explore_loop (runFn : String → RunResult) (graphFn : String → Nat → List String)
    (max_steps max_depth : Nat) (max_seconds : ℚ) (clock : Nat → ℚ)
    (strat : String) (include_backlinks include_other_queries : Bool)
    (mb bl : Nat) (seed_input : String) (ve0 vt0 : List String)
    (fuel : Nat) : Option ExpState :=
  if _normalize_seed_input seed_input = "" then none
  else
    let st1 := exploreLoop runFn graphFn max_steps max_depth max_seconds clock
      strat include_backlinks include_other_queries mb bl fuel
      { queue := [⟨_normalize_seed_input seed_input, 0, "seed"⟩],
        visited_exec := ve0, visited_topics := vt0, trace := [],
        steps_executed := 0, aux_fetch_count := 0,
        stop_reason := "frontier_exhausted",
        mainCalls := [], auxCalls := [], graphCalls := [], tick := 0 }
    some (if st1.queue = [] ∧ st1.stop_reason ≠ "time_budget_exhausted" ∧
            st1.stop_reason ≠ "step_budget_exhausted" then
            { st1 with stop_reason := "frontier_exhausted" }
          else st1)

set_option maxHeartbeats 1000000

/-- **C1** (amended). For every `explore_loop` run with `max_steps = 1`, empty
initial visited sets, and a seed that executes successfully (return code 0,
depth budget ≥ 1, non-empty root topic): exactly the one collaborator call for
the dequeued seed item is billed in `steps_executed`; the searchin-section and
command-section fetches made while expanding it are billed only in
`aux_fetch_count` (which ends at 2); the backlink graph lookup is made exactly
when `include_backlinks` is set but is counted in NEITHER `steps_executed` nor
`aux_fetch_count`; and whenever the frontier is non-empty at the next budget
check the run stops with `stop_reason = "step_budget_exhausted"`. -/
theorem explore_loop_budget_accounting
    (runFn : String → RunResult) (graphFn : String → Nat → List String)
    (max_depth : Nat) (max_seconds : ℚ) (clock : Nat → ℚ)
    (strat : String) (ib ioq : Bool) (mb bl : Nat) (seed : String) (fuel : Nat)
    (htime : ∀ n, ¬ (0 < max_seconds ∧ max_seconds ≤ clock n))
    (hfuel : 2 ≤ fuel)
    (hseed : _normalize_seed_input seed ≠ "")
    (hstrip : pyStrip (_normalize_seed_input seed) = _normalize_seed_input seed)
    (hrc : (runFn (_normalize_seed_input seed)).returncode = 0)
    (hdepth : 1 ≤ max_depth)
    (hroot : root_topic_from_title (pyOr
      (pyStrip (runFn (_normalize_seed_input seed)).title)
      (backlinkTitle (_normalize_seed_input seed))) ≠ "") :
    ∃ st, explore_loop runFn graphFn 1 max_depth max_seconds clock strat ib ioq
        mb bl seed [] [] fuel = some st ∧
      st.steps_executed = 1 ∧
      st.mainCalls = [_normalize_seed_input seed] ∧
      st.aux_fetch_count = 2 ∧
      st.auxCalls.length = 2 ∧
      st.graphCalls.length = (if ib then 1 else 0) ∧
      (st.queue ≠ [] → st.stop_reason = "step_budget_exhausted") := by
  obtain ⟨k, rfl⟩ : ∃ k, fuel = k + 1 + 1 := ⟨fuel - 2, by omega⟩
  simp only [explore_loop]
  generalize hN : _normalize_seed_input seed = N at hseed hstrip hrc hroot ⊢
  rw [if_neg hseed]
  rw [show ∀ st : ExpState, exploreLoop runFn graphFn 1 max_depth max_seconds
    clock strat ib ioq mb bl (k + 1 + 1) st = if st.queue = [] then st
      else if 0 < max_seconds ∧ max_seconds ≤ clock st.tick then
        { st with stop_reason := "time_budget_exhausted" }
      else if 1 ≤ st.steps_executed then
        { st with stop_reason := "step_budget_exhausted" }
      else
        exploreLoop runFn graphFn 1 max_depth max_seconds clock strat
          ib ioq mb bl (k + 1)
          (processItem runFn graphFn max_depth strat ib ioq mb bl st
            st.queue.headI st.queue.tail) from fun st => rfl]
  rw [if_neg (by simp : ¬ (([⟨N, 0, "seed"⟩] : List QueueItem) = [])),
    if_neg (htime 0), if_neg (by omega : ¬ ((1:Nat) ≤ 0))]
  simp only [List.headI, List.tail_cons]
  generalize hPP : processItem runFn graphFn max_depth strat ib ioq mb bl
    { queue := [⟨N, 0, "seed"⟩], visited_exec := [], visited_topics := [],
      trace := [], steps_executed := 0, aux_fetch_count := 0,
      stop_reason := "frontier_exhausted", mainCalls := [], auxCalls := [],
      graphCalls := [], tick := 0 } ⟨N, 0, "seed"⟩ [] = P
  unfold processItem at hPP
  rw [show (⟨N, 0, "seed"⟩ : QueueItem).input = N from rfl,
    show (⟨N, 0, "seed"⟩ : QueueItem).depth = 0 from rfl, hstrip] at hPP
  have hroot2 : expRoot runFn N ≠ "" := hroot
  rw [if_neg hseed,
    if_neg (fun h => absurd h.2 (List.not_mem_nil _)),
    if_neg (fun h => h hrc),
    if_neg (by omega : ¬ (max_depth ≤ 0)),
    if_neg hroot2] at hPP
  have hPq : P.queue = List.map (fun c => (⟨c.input, 1, c.source⟩ : QueueItem))
      (expCandidates runFn graphFn strat ib ioq mb bl [] [] N) := by
    rw [← hPP]
    try with_unfolding_all rfl
  have hPsteps : P.steps_executed = 1 := by
    rw [← hPP]
    try with_unfolding_all rfl
  have hPmain0 : P.mainCalls = [pyStrip N] := by
    rw [← hPP]
    with_unfolding_all rfl
  have hPmain : P.mainCalls = [N] := by rw [hPmain0, hstrip]
  have hPaux : P.aux_fetch_count = 2 := by
    rw [← hPP]
    try with_unfolding_all rfl
  have hPauxC : P.auxCalls.length = 2 := by
    rw [← hPP]
    try with_unfolding_all rfl
  have hPgraph : P.graphCalls.length = (if ib then 1 else 0) := by
    rw [← hPP]
    cases ib <;> with_unfolding_all rfl
  have hPstop : P.stop_reason = "frontier_exhausted" := by
    rw [← hPP]
    try with_unfolding_all rfl
  rw [show exploreLoop runFn graphFn 1 max_depth max_seconds clock strat ib ioq
      mb bl (k + 1) P = (if P.queue = [] then P
      else if 0 < max_seconds ∧ max_seconds ≤ clock P.tick then
        { P with stop_reason := "time_budget_exhausted" }
      else if 1 ≤ P.steps_executed then
        { P with stop_reason := "step_budget_exhausted" }
      else exploreLoop runFn graphFn 1 max_depth max_seconds clock strat ib ioq
        mb bl k (processItem runFn graphFn max_depth strat ib ioq mb bl P
          P.queue.headI P.queue.tail)) from rfl]
  rw [hPq]
  rcases hc : expCandidates runFn graphFn strat ib ioq mb bl [] [] N with _ | ⟨c, cs⟩
  · rw [List.map_nil, if_pos rfl]
    rw [hPq, hc, List.map_nil, hPstop]
    rw [if_pos ⟨rfl, by decide, by decide⟩]
    refine ⟨_, rfl, ?_, ?_, ?_, ?_, ?_, ?_⟩
    · show P.steps_executed = 1
      exact hPsteps
    · show P.mainCalls = [N]
      exact hPmain
    · show P.aux_fetch_count = 2
      exact hPaux
    · show P.auxCalls.length = 2
      exact hPauxC
    · show P.graphCalls.length = (if ib then 1 else 0)
      exact hPgraph
    · intro h
      exact absurd rfl h
  · rw [List.map_cons]
    rw [if_neg (List.cons_ne_nil _ _), if_neg (htime _), hPsteps,
      if_pos (le_refl 1)]
    rw [if_neg (fun h => h.2.2 rfl)]
    refine ⟨_, rfl, ?_, ?_, ?_, ?_, ?_, fun _ => rfl⟩
    · rfl
    · show P.mainCalls = [N]
      exact hPmain
    · show P.aux_fetch_count = 2
      exact hPaux
    · show P.auxCalls.length = 2
      exact hPauxC
    · show P.graphCalls.length = (if ib then 1 else 0)
      exact hPgraph

set_option maxHeartbeats 200000

def c1NavItem : NavItem :=
  { title := "Sub",
    query_kind := "kb_search",
    query_source := "searchin_section",
    query_cmd := "xlb >Sub/",
    query_exec_title := ">Sub/" }

def c1Nav : NavPayload := { knowledge_search := [c1NavItem] }

def c1RunFn : String → RunResult :=
  fun _ => { returncode := 0, title := ">T/", nav := c1Nav }

def c1GraphFn : String → Nat → List String := fun _ _ => []

/-- Counterexample to the unamended C1: in this `include_backlinks` run the
backlink graph lookup is made (one entry in `graphCalls`) yet
`aux_fetch_count` ends at 2 — only the searchin and command section fetches
are billed there; the backlink call is counted in neither `steps_executed`
nor `aux_fetch_count`, contradicting the claim that all three auxiliary call
kinds are counted in `aux_fetch_count`. -/
theorem explore_loop_budget_counterexample :
    (explore_loop c1RunFn c1GraphFn 1 4 0 (fun _ => 0)
      "searchin_command_backlink" true false 6 30 "xlb >T/" [] [] 2).map
      (fun st => (st.steps_executed, st.aux_fetch_count, st.auxCalls.length,
        st.graphCalls, st.stop_reason, st.queue.length))
      = some (1, 2, 2, ["->T/:"], "step_budget_exhausted", 1) := by
  with_unfolding_all rfl

/-- Witness for C1 on a concrete seed and collaborator. -/
theorem explore_loop_budget_accounting_witness :
    ∃ st, explore_loop c1RunFn c1GraphFn 1 4 0 (fun _ => 0)
        "searchin_command_backlink" true false 6 30 "xlb >T/" [] [] 2 = some st ∧
      st.steps_executed = 1 ∧
      st.mainCalls = [_normalize_seed_input "xlb >T/"] ∧
      st.aux_fetch_count = 2 ∧
      st.auxCalls.length = 2 ∧
      st.graphCalls.length = (if true then 1 else 0) ∧
      (st.queue ≠ [] → st.stop_reason = "step_budget_exhausted") :=
  explore_loop_budget_accounting c1RunFn c1GraphFn 4 0 (fun _ => 0)
    "searchin_command_backlink" true false 6 30 "xlb >T/" 2
    (fun _ h => absurd h.1 (lt_irrefl 0)) (by decide) (by decide) (by decide)
    (by decide) (by decide) (by decide)
